import Mathlib

/-!
Verification of the nanda-ssi-demo Tool Gateway against its specification.

The development shallowly embeds the Python tool modules
(`src/tools/traction_api.py`, `src/mcp_tools/traction_api_tool.py`,
`src/acapy_api_tool.py`, `src/mcp_tools/acapy_api_tool.py`).

Embedding conventions:
* Python `str` is modelled as `List Char`.
* JSON values are modelled by the inductive `Json`.  JSON numbers are
  modelled as integers: every numeric value appearing in the invitation /
  connection payloads of this code base is an integer, and IEEE-754 float
  formatting is outside the scope of the embedding.
* Python `dict`s of JSON data are association lists in insertion order
  (`json.loads` and `json.dumps` both preserve insertion order).
* Fallible Python code returns `Except PyExc _`; an uncaught Python
  exception is `Except.error`.
* The HTTP transport is a parameter: a tool model receives the transport
  outcome (decoded response or network-level exception) for each request
  it issues, and additionally reports the list of requests it issued, so
  that "no HTTP call is made" claims are statements about that list.
-/

/-- A JSON value as handled by `json.loads` / `json.dumps`, with numbers
restricted to integers (see the header comment). -/
inductive Json where
  | null
  | bool (b : Bool)
  | num (n : Int)
  | str (s : List Char)
  | arr (elems : List Json)
  | obj (fields : List (List Char × Json))

/-- Decimal digits of a natural number, most significant first: the model of
Python's `repr` for non-negative `int`. -/
def natToChars (n : Nat) : List Char :=
  if _h : n < 10 then [Char.ofNat (48 + n)]
  else natToChars (n / 10) ++ [Char.ofNat (48 + n % 10)]
decreasing_by exact Nat.div_lt_self (by omega) (by omega)

/-- Python's `repr` for `int`: an optional minus sign followed by decimal
digits.  This is what `json.dumps` emits for an integer. -/
def intToChars (n : Int) : List Char :=
  if n < 0 then '-' :: natToChars n.natAbs else natToChars n.natAbs

/-- Lowercase hexadecimal digit, as produced by Python's `'%04x'` format. -/
def hexDigitChar (n : Nat) : Char :=
  if n < 10 then Char.ofNat (48 + n) else Char.ofNat (87 + n)

/-- Four lowercase hex digits, the model of Python's `'\\u%04x' % n` payload. -/
def hex4 (n : Nat) : List Char :=
  [hexDigitChar (n / 4096 % 16), hexDigitChar (n / 256 % 16),
   hexDigitChar (n / 16 % 16), hexDigitChar (n % 16)]

/-- Escaping of one character by `json.dumps` with its default
`ensure_ascii=True` (CPython's `py_encode_basestring_ascii`): the two-character
escapes from `ESCAPE_DCT`, `\\u%04x` for the other characters outside
`0x20..0x7e`, and a UTF-16 surrogate pair for astral characters.  The
surrogate arithmetic `0xd800 + m / 0x400` / `0xdc00 + m % 0x400` equals
CPython's `0xd800 | ((m >> 10) & 0x3ff)` / `0xdc00 | (m & 0x3ff)`;
see `surrogateHi_eq_bitwise` and `surrogateLo_eq_bitwise` below. -/
def escapeChar (c : Char) : List Char :=
  if c = '"' then ['\\', '"']
  else if c = '\\' then ['\\', '\\']
  else if c = '\x08' then ['\\', 'b']
  else if c = '\x0c' then ['\\', 'f']
  else if c = '\n' then ['\\', 'n']
  else if c = '\r' then ['\\', 'r']
  else if c = '\t' then ['\\', 't']
  else if c.toNat < 0x20 ∨ 0x7E < c.toNat then
    if c.toNat < 0x10000 then '\\' :: 'u' :: hex4 c.toNat
    else
      '\\' :: 'u' :: hex4 (0xD800 + (c.toNat - 0x10000) / 0x400) ++
      '\\' :: 'u' :: hex4 (0xDC00 + (c.toNat - 0x10000) % 0x400)
  else [c]

/-- Body of a JSON string literal: each character escaped in turn. -/
def escBody : List Char → List Char
  | [] => []
  | c :: cs => escapeChar c ++ escBody cs

/-- A complete JSON string literal as emitted by `json.dumps`. -/
def dumpsString (s : List Char) : List Char :=
  '"' :: escBody s ++ ['"']

mutual
/-- Compact serialization of a JSON value: the model of
`json.dumps(x, separators=(',', ':'))` (default `ensure_ascii=True`), the
exact call used by `create_out_of_band_invitation` to serialize the
invitation object. -/
def dumps : Json → List Char
  | .null => ['n', 'u', 'l', 'l']
  | .bool false => ['f', 'a', 'l', 's', 'e']
  | .bool true => ['t', 'r', 'u', 'e']
  | .num n => intToChars n
  | .str s => dumpsString s
  | .arr l => '[' :: dumpsElems l ++ [']']
  | .obj fs => '\x7b' :: dumpsFields fs ++ ['\x7d']

/-- Comma-separated serialization of array elements. -/
def dumpsElems : List Json → List Char
  | [] => []
  | [v] => dumps v
  | v :: w :: vs => dumps v ++ ',' :: dumpsElems (w :: vs)

/-- Comma-separated serialization of object fields (`key:value`). -/
def dumpsFields : List (List Char × Json) → List Char
  | [] => []
  | [(k, v)] => dumpsString k ++ ':' :: dumps v
  | (k, v) :: f :: fs => dumpsString k ++ ':' :: dumps v ++ ',' :: dumpsFields (f :: fs)
end

/-- The given number of spaces. -/
def spaces (n : Nat) : List Char :=
  List.replicate n ' '

mutual
/-- Pretty serialization with two-space indentation: the model of
`json.dumps(x, indent=2)` (item separator `','`, key separator `': '`),
the form in which every tool returns a JSON response body.  `d` is the
current nesting depth. -/
def dumpsInd (d : Nat) : Json → List Char
  | .null => ['n', 'u', 'l', 'l']
  | .bool false => ['f', 'a', 'l', 's', 'e']
  | .bool true => ['t', 'r', 'u', 'e']
  | .num n => intToChars n
  | .str s => dumpsString s
  | .arr [] => ['[', ']']
  | .arr (v :: vs) =>
      '[' :: '\n' :: spaces (2 * (d + 1)) ++ dumpsIndElems (d + 1) v vs ++
        '\n' :: spaces (2 * d) ++ [']']
  | .obj [] => ['\x7b', '\x7d']
  | .obj (f :: fs) =>
      '\x7b' :: '\n' :: spaces (2 * (d + 1)) ++ dumpsIndFields (d + 1) f fs ++
        '\n' :: spaces (2 * d) ++ ['\x7d']
termination_by v => sizeOf v

/-- Indented array elements, separated by `',\n' ++ indentation`. -/
def dumpsIndElems (d : Nat) (v : Json) : List Json → List Char
  | [] => dumpsInd d v
  | w :: vs => dumpsInd d v ++ ',' :: '\n' :: spaces (2 * d) ++ dumpsIndElems d w vs
termination_by vs => 1 + sizeOf v + sizeOf vs

/-- Indented object fields (`key: value`), separated by `',\n' ++ indentation`. -/
def dumpsIndFields (d : Nat) (f : List Char × Json) :
    List (List Char × Json) → List Char
  | [] => dumpsString f.1 ++ ':' :: ' ' :: dumpsInd d f.2
  | g :: fs =>
      dumpsString f.1 ++ ':' :: ' ' :: dumpsInd d f.2 ++
        ',' :: '\n' :: spaces (2 * d) ++ dumpsIndFields d g fs
termination_by fs => 1 + sizeOf f + sizeOf fs
decreasing_by
all_goals obtain ⟨k, w⟩ := f
all_goals simp_wf
all_goals omega
end

/-- Model of `json.dumps(x, indent=2)` at top level. -/
def dumpsIndent2 (v : Json) : List Char :=
  dumpsInd 0 v

mutual
/-- Node count of a JSON value; a lower bound for the parser fuel. -/
def jsize : Json → Nat
  | .null | .bool _ | .num _ | .str _ => 1
  | .arr l => 1 + jsizeL l
  | .obj fs => 1 + jsizeF fs

/-- Node count of a list of JSON values. -/
def jsizeL : List Json → Nat
  | [] => 0
  | v :: vs => 1 + jsize v + jsizeL vs

/-- Node count of a list of JSON object fields. -/
def jsizeF : List (List Char × Json) → Nat
  | [] => 0
  | (_, v) :: fs => 1 + jsize v + jsizeF fs
end

/-! ## A JSON parser, modelling `json.loads`

The spec's inverse operation for the invitation URL is "re-add padding,
base64url-decode, parse the result as JSON".  The repository itself never
decodes (only its peer does), so the parser below models standard strict
JSON parsing as `json.loads` performs it, restricted to the integer number
model: number tokens with a fraction or exponent part (Python floats) are
rejected, and a `\uXXXX` escape that is a lone UTF-16 surrogate is
rejected (Python would produce a non-scalar string that `List Char`
cannot represent).  Neither restriction is reachable from serializer
output. -/

/-- JSON whitespace accepted between tokens by `json.loads`. -/
def isJsonWs (c : Char) : Bool :=
  c = ' ' ∨ c = '\t' ∨ c = '\n' ∨ c = '\r'

/-- Skip JSON whitespace. -/
def skipWs (s : List Char) : List Char :=
  s.dropWhile isJsonWs

/-- ASCII decimal digit test. -/
def isDigit (c : Char) : Bool :=
  48 ≤ c.toNat ∧ c.toNat ≤ 57

/-- Value of a decimal digit string, most significant first. -/
def digitsToNat (ds : List Char) : Nat :=
  ds.foldl (fun a c => 10 * a + (c.toNat - 48)) 0

/-- Value of one hexadecimal digit (`json.loads` accepts both cases). -/
def hexVal (c : Char) : Option Nat :=
  if 48 ≤ c.toNat ∧ c.toNat ≤ 57 then some (c.toNat - 48)
  else if 97 ≤ c.toNat ∧ c.toNat ≤ 102 then some (c.toNat - 87)
  else if 65 ≤ c.toNat ∧ c.toNat ≤ 70 then some (c.toNat - 55)
  else none

/-- Value of a four-digit hexadecimal escape payload. -/
def hex4Val (h1 h2 h3 h4 : Char) : Option Nat :=
  match hexVal h1, hexVal h2, hexVal h3, hexVal h4 with
  | some a, some b, some c, some d => some (((a * 16 + b) * 16 + c) * 16 + d)
  | _, _, _, _ => none

/-- Prepend a character to a pending string-parse result. -/
def consStr (c : Char) : Option (List Char × List Char) → Option (List Char × List Char)
  | some (s, r) => some (c :: s, r)
  | none => none

/-- Decode one escape sequence after a backslash, returning the decoded
character and the remaining input: the escape table of strict
`json.loads`, with a high UTF-16 surrogate requiring its low partner
(Python would keep a lone surrogate, producing a non-scalar string that
`List Char` cannot represent, so the model rejects it; serializer output
never contains one). -/
def unescape : List Char → Option (Char × List Char)
  | [] => none
  | e :: r2 =>
    if e = '"' then some ('"', r2)
    else if e = '\\' then some ('\\', r2)
    else if e = '/' then some ('/', r2)
    else if e = 'b' then some ('\x08', r2)
    else if e = 'f' then some ('\x0c', r2)
    else if e = 'n' then some ('\n', r2)
    else if e = 'r' then some ('\r', r2)
    else if e = 't' then some ('\t', r2)
    else if e = 'u' then
      match r2 with
      | h1 :: h2 :: h3 :: h4 :: r3 =>
        match hex4Val h1 h2 h3 h4 with
        | some n =>
          if n < 0xD800 ∨ 0xDFFF < n then some (Char.ofNat n, r3)
          else if n < 0xDC00 then
            match r3 with
            | b1 :: b2 :: g1 :: g2 :: g3 :: g4 :: r4 =>
              if b1 = '\\' ∧ b2 = 'u' then
                match hex4Val g1 g2 g3 g4 with
                | some m =>
                  if 0xDC00 ≤ m ∧ m ≤ 0xDFFF then
                    some (Char.ofNat (0x10000 + (n - 0xD800) * 0x400 + (m - 0xDC00)), r4)
                  else none
                | none => none
              else none
            | _ => none
          else none
        | none => none
      | _ => none
    else none

/-- Parse the body of a JSON string literal after the opening quote, up to
and including the closing quote (raw control characters are rejected, as
in strict `json.loads`).  The fuel argument only bounds the recursion:
every step consumes at least one input character, so callers supply
`length + 1`. -/
def parseStringBody : Nat → List Char → Option (List Char × List Char)
  | 0, _ => none
  | _ + 1, [] => none
  | fuel + 1, c :: r =>
    if c = '"' then some ([], r)
    else if c = '\\' then
      match unescape r with
      | some (d, r2) => consStr d (parseStringBody fuel r2)
      | none => none
    else if c.toNat < 0x20 then none
    else consStr c (parseStringBody fuel r)

/-- Parse an unsigned JSON integer token: one or more decimal digits, no
leading zero.  A following `.`, `e` or `E` would make the token a Python
float, which is outside the integer number model, so it is rejected. -/
def parseIntBody (s : List Char) : Option (Nat × List Char) :=
  let ds := s.takeWhile isDigit
  let r := s.dropWhile isDigit
  if ds.isEmpty then none
  else if ds.head? = some '0' ∧ ds.length ≠ 1 then none
  else if r.head? = some '.' ∨ r.head? = some 'e' ∨ r.head? = some 'E' then none
  else some (digitsToNat ds, r)

/-- Parse a JSON number token (optional minus sign, then digits). -/
def parseNum (s : List Char) : Option (Json × List Char) :=
  match s with
  | [] => none
  | c :: r =>
    if c = '-' then (parseIntBody r).map (fun p => (Json.num (-(p.1 : Int)), p.2))
    else (parseIntBody (c :: r)).map (fun p => (Json.num (p.1 : Int), p.2))

/-- Finish the `null` literal after its leading `n`. -/
def parseNullTail : List Char → Option (Json × List Char)
  | 'u' :: 'l' :: 'l' :: r2 => some (.null, r2)
  | _ => none

/-- Finish the `true` literal after its leading `t`. -/
def parseTrueTail : List Char → Option (Json × List Char)
  | 'r' :: 'u' :: 'e' :: r2 => some (.bool true, r2)
  | _ => none

/-- Finish the `false` literal after its leading `f`. -/
def parseFalseTail : List Char → Option (Json × List Char)
  | 'a' :: 'l' :: 's' :: 'e' :: r2 => some (.bool false, r2)
  | _ => none

mutual
/-- Parse one JSON value, fuelled.  The fuel only bounds nesting and
element counts; `loads` supplies `length + 1`, which `jsize_le_length_dumps`
shows is always enough for serializer output. -/
def parseVal : Nat → List Char → Option (Json × List Char)
  | 0, _ => none
  | fuel + 1, s =>
    match skipWs s with
    | [] => none
    | c :: r =>
      if c = 'n' then parseNullTail r
      else if c = 't' then parseTrueTail r
      else if c = 'f' then parseFalseTail r
      else if c = '"' then (parseStringBody (r.length + 1) r).map (fun p => (.str p.1, p.2))
      else if c = '[' then parseArrBody fuel r
      else if c = '\x7b' then parseObjBody fuel r
      else parseNum (c :: r)
termination_by fuel _ => (fuel, 1)

/-- Parse the content of a JSON array after its opening bracket. -/
def parseArrBody (fuel : Nat) (r : List Char) : Option (Json × List Char) :=
  match skipWs r with
  | [] => none
  | c2 :: r2 =>
    if c2 = ']' then some (.arr [], r2)
    else (parseElems fuel r).map (fun p => (.arr p.1, p.2))
termination_by (fuel, 2)

/-- Parse the content of a JSON object after its opening brace. -/
def parseObjBody (fuel : Nat) (r : List Char) : Option (Json × List Char) :=
  match skipWs r with
  | [] => none
  | c2 :: r2 =>
    if c2 = '\x7d' then some (.obj [], r2)
    else (parseFields fuel r).map (fun p => (.obj p.1, p.2))
termination_by (fuel, 2)

/-- Parse the elements of a non-empty JSON array, up to and including the
closing bracket. -/
def parseElems : Nat → List Char → Option (List Json × List Char)
  | 0, _ => none
  | fuel + 1, s =>
    match parseVal fuel s with
    | none => none
    | some (v, r) => parseElemsSep fuel v r
termination_by fuel _ => (fuel, 0)

/-- After one array element: a comma continues, a bracket closes. -/
def parseElemsSep (fuel : Nat) (v : Json) (r : List Char) :
    Option (List Json × List Char) :=
  match skipWs r with
  | [] => none
  | c :: r2 =>
    if c = ',' then (parseElems fuel r2).map (fun p => (v :: p.1, p.2))
    else if c = ']' then some ([v], r2)
    else none
termination_by (fuel, 2)

/-- Parse the fields of a non-empty JSON object, up to and including the
closing brace. -/
def parseFields : Nat → List Char → Option (List (List Char × Json) × List Char)
  | 0, _ => none
  | fuel + 1, s =>
    match skipWs s with
    | [] => none
    | c :: r => if c = '"' then parseFieldKey fuel r else none
termination_by fuel _ => (fuel, 0)

/-- Parse one field key (after its opening quote). -/
def parseFieldKey (fuel : Nat) (r : List Char) :
    Option (List (List Char × Json) × List Char) :=
  match parseStringBody (r.length + 1) r with
  | none => none
  | some (k, r2) => parseFieldColon fuel k r2
termination_by (fuel, 4)

/-- Expect the colon after a field key. -/
def parseFieldColon (fuel : Nat) (k : List Char) (r2 : List Char) :
    Option (List (List Char × Json) × List Char) :=
  match skipWs r2 with
  | [] => none
  | c2 :: r3 => if c2 = ':' then parseFieldValue fuel k r3 else none
termination_by (fuel, 3)

/-- Parse one field value. -/
def parseFieldValue (fuel : Nat) (k : List Char) (r3 : List Char) :
    Option (List (List Char × Json) × List Char) :=
  match parseVal fuel r3 with
  | none => none
  | some (v, r4) => parseFieldsSep fuel k v r4
termination_by (fuel, 2)

/-- After one object field: a comma continues, a brace closes. -/
def parseFieldsSep (fuel : Nat) (k : List Char) (v : Json) (r4 : List Char) :
    Option (List (List Char × Json) × List Char) :=
  match skipWs r4 with
  | [] => none
  | c3 :: r5 =>
    if c3 = ',' then (parseFields fuel r5).map (fun p => ((k, v) :: p.1, p.2))
    else if c3 = '\x7d' then some ([(k, v)], r5)
    else none
termination_by (fuel, 1)
end

/-- Model of `json.loads`: parse one JSON document, allowing surrounding
whitespace and rejecting trailing data. -/
def loads (s : List Char) : Option Json :=
  match parseVal (s.length + 1) s with
  | some (v, r) => if skipWs r = [] then some v else none
  | none => none

/-! ## URL-safe base64 and UTF-8, for the invitation encoder -/

/-- Character of the URL-safe base64 alphabet (`A-Z`, `a-z`, `0-9`, `-`, `_`)
for one sextet. -/
def b64char (n : Nat) : Char :=
  if n < 26 then Char.ofNat (65 + n)
  else if n < 52 then Char.ofNat (97 + (n - 26))
  else if n < 62 then Char.ofNat (48 + (n - 52))
  else if n = 62 then '-'
  else '_'

/-- Model of `base64.urlsafe_b64encode` on a byte list: three bytes become
four alphabet characters, a final group of one or two bytes is padded
with `=`. -/
def b64encode : List Nat → List Char
  | [] => []
  | [a] => [b64char (a / 4), b64char (a % 4 * 16), '=', '=']
  | [a, b] => [b64char (a / 4), b64char (a % 4 * 16 + b / 16), b64char (b % 16 * 4), '=']
  | a :: b :: c :: rest =>
      b64char (a / 4) :: b64char (a % 4 * 16 + b / 16) ::
        b64char (b % 16 * 4 + c / 64) :: b64char (c % 64) :: b64encode rest

/-- Sextet value of a URL-safe base64 alphabet character. -/
def b64val (c : Char) : Option Nat :=
  if 65 ≤ c.toNat ∧ c.toNat ≤ 90 then some (c.toNat - 65)
  else if 97 ≤ c.toNat ∧ c.toNat ≤ 122 then some (c.toNat - 97 + 26)
  else if 48 ≤ c.toNat ∧ c.toNat ≤ 57 then some (c.toNat - 48 + 52)
  else if c = '-' then some 62
  else if c = '_' then some 63
  else none

/-- Model of `base64.urlsafe_b64decode` on a correctly padded input:
four-character groups become bytes, with `=` padding allowed only in the
final group (an input whose length is not a multiple of four is
rejected; Python's decoder would also discard characters outside the
alphabet before grouping, a case no claim reaches). -/
def b64decode : List Char → Option (List Nat)
  | [] => some []
  | c1 :: c2 :: c3 :: c4 :: rest =>
    if c3 = '=' then
      if c4 = '=' ∧ rest = [] then
        match b64val c1, b64val c2 with
        | some a, some b => some [a * 4 + b / 16]
        | _, _ => none
      else none
    else if c4 = '=' then
      if rest = [] then
        match b64val c1, b64val c2, b64val c3 with
        | some a, some b, some c => some [a * 4 + b / 16, b % 16 * 16 + c / 4]
        | _, _, _ => none
      else none
    else
      match b64val c1, b64val c2, b64val c3, b64val c4, b64decode rest with
      | some a, some b, some c, some d, some bs =>
          some ((a * 4 + b / 16) :: (b % 16 * 16 + c / 4) :: (c % 4 * 64 + d) :: bs)
      | _, _, _, _, _ => none
  | _ => none

/-- UTF-8 bytes of one scalar value, as `str.encode("utf-8")` emits them. -/
def utf8Char (c : Char) : List Nat :=
  if c.toNat < 0x80 then [c.toNat]
  else if c.toNat < 0x800 then [0xC0 + c.toNat / 64, 0x80 + c.toNat % 64]
  else if c.toNat < 0x10000 then
    [0xE0 + c.toNat / 4096, 0x80 + c.toNat / 64 % 64, 0x80 + c.toNat % 64]
  else
    [0xF0 + c.toNat / 262144, 0x80 + c.toNat / 4096 % 64, 0x80 + c.toNat / 64 % 64,
      0x80 + c.toNat % 64]

/-- UTF-8 encoding of a string, the model of `s.encode("utf-8")`. -/
def utf8Encode : List Char → List Nat
  | [] => []
  | c :: cs => utf8Char c ++ utf8Encode cs

/-- Decode one multi-byte UTF-8 sequence from its lead byte and the
following input, returning the scalar value and the remaining bytes:
malformed sequences (bad continuation bytes, overlong forms, surrogates,
values past `0x10FFFF`) are rejected. -/
def utf8DecodeStep (b1 : Nat) (rest : List Nat) : Option (Char × List Nat) :=
  if b1 < 0xC2 then none
  else if b1 < 0xE0 then
    match rest with
    | b2 :: rest2 =>
      if 0x80 ≤ b2 ∧ b2 < 0xC0 then
        some (Char.ofNat ((b1 - 0xC0) * 64 + (b2 - 0x80)), rest2)
      else none
    | _ => none
  else if b1 < 0xF0 then
    match rest with
    | b2 :: b3 :: rest2 =>
      if (0x80 ≤ b2 ∧ b2 < 0xC0) ∧ (0x80 ≤ b3 ∧ b3 < 0xC0) then
        if (b1 - 0xE0) * 4096 + (b2 - 0x80) * 64 + (b3 - 0x80) < 0x800 ∨
            (0xD800 ≤ (b1 - 0xE0) * 4096 + (b2 - 0x80) * 64 + (b3 - 0x80) ∧
              (b1 - 0xE0) * 4096 + (b2 - 0x80) * 64 + (b3 - 0x80) ≤ 0xDFFF) then none
        else some (Char.ofNat ((b1 - 0xE0) * 4096 + (b2 - 0x80) * 64 + (b3 - 0x80)), rest2)
      else none
    | _ => none
  else if b1 < 0xF5 then
    match rest with
    | b2 :: b3 :: b4 :: rest2 =>
      if (0x80 ≤ b2 ∧ b2 < 0xC0) ∧ (0x80 ≤ b3 ∧ b3 < 0xC0) ∧ (0x80 ≤ b4 ∧ b4 < 0xC0) then
        if (b1 - 0xF0) * 262144 + (b2 - 0x80) * 4096 + (b3 - 0x80) * 64 + (b4 - 0x80) < 0x10000 ∨
            0x10FFFF < (b1 - 0xF0) * 262144 + (b2 - 0x80) * 4096 + (b3 - 0x80) * 64 + (b4 - 0x80) then
          none
        else
          some (Char.ofNat
            ((b1 - 0xF0) * 262144 + (b2 - 0x80) * 4096 + (b3 - 0x80) * 64 + (b4 - 0x80)), rest2)
      else none
    | _ => none
  else none

/-- UTF-8 decoding, the model of `bytes.decode("utf-8")`.  The fuel only
bounds the recursion: every step consumes at least one byte, so callers
supply `length + 1`. -/
def utf8Decode : Nat → List Nat → Option (List Char)
  | 0, _ => none
  | _ + 1, [] => some []
  | fuel + 1, b1 :: rest =>
    if b1 < 0x80 then (utf8Decode fuel rest).map (fun cs => Char.ofNat b1 :: cs)
    else
      match utf8DecodeStep b1 rest with
      | some (c, rest2) => (utf8Decode fuel rest2).map (fun cs => c :: cs)
      | none => none

/-- Model of Python's `.rstrip("=")`: drop trailing `=` characters. -/
def rstripEq (s : List Char) : List Char :=
  (s.reverse.dropWhile (fun c => c = '=')).reverse

/-- The padding re-addition prescribed by the spec's inverse operation:
`"=" * ((4 - len % 4) % 4)`. -/
def repad (s : List Char) : List Char :=
  s ++ List.replicate ((4 - s.length % 4) % 4) '='

/-- The `oob` query value built by `create_out_of_band_invitation`
(both copies, `src/tools/traction_api.py:250-254` and
`src/mcp_tools/traction_api_tool.py:261-265`): URL-safe base64 of the
UTF-8 bytes of the compact JSON serialization of the invitation, with
trailing `=` stripped. -/
def oobEncode (invitation : Json) : List Char :=
  rstripEq (b64encode (utf8Encode (dumps invitation)))

/-- The connection URL `f"{base_url}?oob={encoded_invitation}"`. -/
def connection_url (base_url : List Char) (invitation : Json) : List Char :=
  base_url ++ ('?' :: 'o' :: 'o' :: 'b' :: '=' :: []) ++ oobEncode invitation

/-- The spec's inverse operation: re-add padding, base64url-decode, decode
UTF-8, parse as JSON. -/
def decode_oob (e : List Char) : Option Json :=
  match b64decode (repad e) with
  | none => none
  | some bytes =>
    match utf8Decode (bytes.length + 1) bytes with
    | none => none
    | some chars => loads chars

/-! ## Python-level helpers for the tool models -/

/-- An uncaught Python exception, as the tool code can raise it. -/
inductive PyExc where
  | typeError
  | attributeError
  | valueError
  | keyError
  | nameError
  | netError (msg : List Char)

/-- Python truthiness (`if x:` / `if not x:`) on JSON-shaped values. -/
def pyFalsy : Json → Bool
  | .null => true
  | .bool b => !b
  | .num n => n = 0
  | .str s => s.isEmpty
  | .arr l => l.isEmpty
  | .obj fs => fs.isEmpty

/-- First binding of a key in an object's field list (a Python dict has at
most one binding per key). -/
def lookupField : List (List Char × Json) → List Char → Option Json
  | [], _ => none
  | (k, v) :: fs, key => if k = key then some v else lookupField fs key

/-- Python `v.get(key, default)`; a non-dict receiver raises
`AttributeError`. -/
def dictGet (v : Json) (key : List Char) (dflt : Json) : Except PyExc Json :=
  match v with
  | .obj fs => .ok ((lookupField fs key).getD dflt)
  | _ => .error .attributeError

mutual
/-- Structural equality of JSON values.  It models Python `==` at every
comparison the tool code performs (each compares against a string literal,
and Python's `str.__eq__` against a non-string is `False`). -/
def jeq : Json → Json → Bool
  | .null, .null => true
  | .bool a, .bool b => a = b
  | .num a, .num b => a = b
  | .str a, .str b => a = b
  | .arr a, .arr b => jeqL a b
  | .obj a, .obj b => jeqF a b
  | _, _ => false

/-- Pointwise equality of JSON lists. -/
def jeqL : List Json → List Json → Bool
  | [], [] => true
  | a :: as_, b :: bs => jeq a b && jeqL as_ bs
  | _, _ => false

/-- Pointwise equality of JSON field lists. -/
def jeqF : List (List Char × Json) → List (List Char × Json) → Bool
  | [], [] => true
  | (k, a) :: as_, (l, b) :: bs => k = l && jeq a b && jeqF as_ bs
  | _, _ => false
end

/-- Python iteration `[... for x in v]`: a list yields its elements, a dict
its keys, a string its characters (as one-character strings); iterating any
other value raises `TypeError`. -/
def pyIter (v : Json) : Except PyExc (List Json) :=
  match v with
  | .arr l => .ok l
  | .obj fs => .ok (fs.map (fun f => .str f.1))
  | .str s => .ok (s.map (fun c => .str [c]))
  | _ => .error .typeError

/-- Python `v[0]` as used after a non-emptiness check: first element of a
list, first character of a string; anything else raises. -/
def pyIndex0 (v : Json) : Except PyExc Json :=
  match v with
  | .arr (x :: _) => .ok x
  | .str (c :: _) => .ok (.str [c])
  | _ => .error .typeError

/-- Python `v[key]`: dict lookup (`KeyError` when absent); a non-dict
receiver raises `TypeError`. -/
def pySubscript (v : Json) (key : List Char) : Except PyExc Json :=
  match v with
  | .obj fs =>
    match lookupField fs key with
    | some x => .ok x
    | none => .error .keyError
  | _ => .error .typeError

/-- Boolean prefix test on character lists. -/
def hasPrefixB : List Char → List Char → Bool
  | [], _ => true
  | _ :: _, [] => false
  | a :: ps, b :: ss => a = b && hasPrefixB ps ss

/-- Boolean substring test on character lists. -/
def hasInfixB (p s : List Char) : Bool :=
  match s with
  | [] => p.isEmpty
  | _ :: ss => hasPrefixB p s || hasInfixB p ss

/-- Python `key in v`: key membership for a dict, `==`-membership for a
list, substring test for a string; `TypeError` otherwise. -/
def pyContains (v : Json) (key : List Char) : Except PyExc Bool :=
  match v with
  | .obj fs => .ok (lookupField fs key).isSome
  | .arr l => .ok (l.any (fun x => jeq x (.str key)))
  | .str s => .ok (hasInfixB key s)
  | _ => .error .typeError

/-- ASCII case lowering, the model of `str.lower()` for the ASCII labels
and method names this repository compares (Python also lowers non-ASCII
letters, which no comparison here involves). -/
def asciiLower (s : List Char) : List Char :=
  s.map (fun c => if 65 ≤ c.toNat ∧ c.toNat ≤ 90 then Char.ofNat (c.toNat + 32) else c)

/-- ASCII whitespace stripped by `str.strip()` (Python also strips some
Unicode spaces; the validation claims concern ASCII whitespace). -/
def isPySpace (c : Char) : Bool :=
  c = ' ' ∨ c = '\t' ∨ c = '\n' ∨ c = '\r' ∨ c = '\x0b' ∨ c = '\x0c'

/-- Model of `str.strip()`. -/
def pyStrip (s : List Char) : List Char :=
  ((s.dropWhile isPySpace).reverse.dropWhile isPySpace).reverse

/-- Python `str(x)` as used by f-string path interpolation.  The scalar
cases are exact; for a list or dict argument Python would use `repr`,
whose quoting differs from JSON — the stand-in below only affects the path
text of a request that no claim constrains. -/
def pyStr : Json → List Char
  | .null => ['N', 'o', 'n', 'e']
  | .bool true => ['T', 'r', 'u', 'e']
  | .bool false => ['F', 'a', 'l', 's', 'e']
  | .num n => intToChars n
  | .str s => s
  | .arr l => dumps (.arr l)
  | .obj fs => dumps (.obj fs)

/-! ## The HTTP boundary -/

/-- One HTTP request issued by a tool: method, path, and the payload (query
parameters for GET, JSON body otherwise).  Headers are not modelled: no
claim mentions them. -/
structure HttpCall where
  method : List Char
  path : List Char
  payload : Option Json

/-- A decoded HTTP response: status code, raw body text (`resp.text()`),
and decoded JSON body (`resp.json()`; a success body that fails to decode
would raise inside `aiohttp`, a case no claim reaches). -/
structure HttpResp where
  status : Nat
  text : List Char
  json : Json

/-- Transport-level outcome of one request: a response, or a network-level
exception (connection refused, DNS failure, TLS failure, timeout) raised
by `aiohttp`. -/
inductive TransportResult where
  | response (resp : HttpResp)
  | netError (msg : List Char)

/-- The environment: what the network returns for each request. -/
def Transport : Type :=
  HttpCall → TransportResult

/-- The error dictionary `{"error": error_text, "status": resp.status}`
built for a non-success status by `src/tools/traction_api.py:43` and by
`src/mcp_tools/traction_api_tool.py:43,50,57,64`. -/
def errorBody (r : HttpResp) : Json :=
  .obj [(['e', 'r', 'r', 'o', 'r'], .str r.text),
        (['s', 't', 'a', 't', 'u', 's'], .num (r.status : Int))]

/-! ## `src/tools/traction_api.py` -/

namespace TractionApi

/-- The inner `parse_response` of `src/tools/traction_api.py:39-44`: any
status outside `(200, 201)` — for every method — yields the error
dictionary, otherwise the decoded body is returned. -/
def parse_response (resp : HttpResp) : Json :=
  if resp.status = 200 ∨ resp.status = 201 then resp.json else errorBody resp

/-- The executor `http_request` of `src/tools/traction_api.py:35-59`:
dispatch on the lowercased method, apply `parse_response`, raise
`ValueError` for an unsupported method.  There is no exception handler:
a network-level failure propagates. -/
def http_request (method : List Char) (t : TransportResult) : Except PyExc Json :=
  if asciiLower method = ['g', 'e', 't'] ∨ asciiLower method = ['p', 'o', 's', 't'] ∨
      asciiLower method = ['p', 'u', 't'] ∨ asciiLower method = ['d', 'e', 'l', 'e', 't', 'e'] then
    match t with
    | .response r => .ok (parse_response r)
    | .netError m => .error (.netError m)
  else .error .valueError

/-- The module-level configuration `TENANT_ID` / `API_KEY`
(`src/tools/traction_api.py:13-14`, already `.strip()`ped at load). -/
structure Config where
  tenantId : List Char
  apiKey : List Char

/-- The token request issued by `get_bearer_token`
(`src/tools/traction_api.py:67-75`). -/
def token_call (cfg : Config) : HttpCall :=
  ⟨['p', 'o', 's', 't'],
    "/multitenancy/tenant/".data ++ cfg.tenantId ++ "/token".data,
    some (.obj [(['a', 'p', 'i', '_', 'k', 'e', 'y'], .str cfg.apiKey)])⟩

/-- `get_bearer_token` of `src/tools/traction_api.py:61-81`: missing
configuration short-circuits; otherwise one POST, then
`result.get("token", "")` with a truthiness check. -/
def get_bearer_token (cfg : Config) (env : Transport) :
    List HttpCall × Except PyExc Json :=
  if cfg.tenantId.isEmpty ∨ cfg.apiKey.isEmpty then
    ([], .ok (.str "Error: TENANT_ID or API_KEY is missing".data))
  else
    match http_request ['p', 'o', 's', 't'] (env (token_call cfg)) with
    | .error e => ([token_call cfg], .error e)
    | .ok result =>
      match dictGet result ['t', 'o', 'k', 'e', 'n'] (.str []) with
      | .error e => ([token_call cfg], .error e)
      | .ok tok =>
        if pyFalsy tok then
          ([token_call cfg], .ok (.str "Error: Unable to retrieve token".data))
        else ([token_call cfg], .ok tok)

end TractionApi

/-- Query-parameter construction shared verbatim by both `list_connections`
copies (`src/tools/traction_api.py:137-152`,
`src/mcp_tools/traction_api_tool.py:143-158`): the `params` dict in source
order, then the comprehension dropping `None` values.  `limit` and
`offset` are `int`-typed with defaults `100` and `0`, so they are never
`None`. -/
def list_connections_query (alias_ connection_protocol invitation_key invitation_msg_id :
      Option (List Char)) (limit : Int) (my_did : Option (List Char)) (offset : Int)
    (state their_did their_public_did their_role : Option (List Char)) :
    List (List Char × Json) :=
  ([("alias".data, alias_.map .str),
    ("connection_protocol".data, connection_protocol.map .str),
    ("invitation_key".data, invitation_key.map .str),
    ("invitation_msg_id".data, invitation_msg_id.map .str),
    ("limit".data, some (.num limit)),
    ("my_did".data, my_did.map .str),
    ("offset".data, some (.num offset)),
    ("state".data, state.map .str),
    ("their_did".data, their_did.map .str),
    ("their_public_did".data, their_public_did.map .str),
    ("their_role".data, their_role.map .str)] :
      List (List Char × Option Json)).filterMap
    (fun p => p.2.map (fun v => (p.1, v)))

namespace TractionApi

/-- `list_connections` of `src/tools/traction_api.py:100-155`: fetch a
bearer token (one POST, used only for an unmodelled header), then GET
`/connections` with the filtered query parameters and pretty-print the
result. -/
def list_connections (cfg : Config) (env : Transport)
    (alias_ connection_protocol invitation_key invitation_msg_id : Option (List Char))
    (limit : Int) (my_did : Option (List Char)) (offset : Int)
    (state their_did their_public_did their_role : Option (List Char)) :
    List HttpCall × Except PyExc (List Char) :=
  match get_bearer_token cfg env with
  | (calls, .error e) => (calls, .error e)
  | (calls, .ok _token) =>
    let call : HttpCall :=
      ⟨['g', 'e', 't'], "/connections".data,
        some (.obj (list_connections_query alias_ connection_protocol invitation_key
          invitation_msg_id limit my_did offset state their_did their_public_did their_role))⟩
    match http_request ['g', 'e', 't'] (env call) with
    | .error e => (calls ++ [call], .error e)
    | .ok result => (calls ++ [call], .ok (dumpsIndent2 result))

end TractionApi

/-- The fixed base URL of the connection URL
(`src/tools/traction_api.py:241`, `src/mcp_tools/traction_api_tool.py:252`). -/
def ngrok_base : List Char :=
  "https://92ce-80-40-22-48.ngrok-free.app".data

/-- Post-processing of the create-invitation response, identical in both
copies (`src/tools/traction_api.py:243-259`,
`src/mcp_tools/traction_api_tool.py:254-270`): when `"invitation" not in
result`, return the pretty-printed raw response; otherwise serialize,
base64url-encode and build the connection URL. -/
def oob_postprocess (result : Json) : Except PyExc (List Char) :=
  match pyContains result "invitation".data with
  | .error e => .error e
  | .ok false => .ok (dumpsIndent2 result)
  | .ok true =>
    match pySubscript result "invitation".data with
    | .error e => .error e
    | .ok invitation => .ok (connection_url ngrok_base invitation)

/-- The invitation payload built by both `create_out_of_band_invitation`
copies (`src/tools/traction_api.py:221-231`,
`src/mcp_tools/traction_api_tool.py:231-241`): fixed keys, then
`handshake_protocols` when `handshake` is set, then `metadata` when
truthy. -/
def oob_payload (alias_ : List Char) (handshake : Bool) (metadata : Json)
    (use_public_did : Bool) (my_label : List Char) : Json :=
  .obj ([("alias".data, .str alias_),
         ("my_label".data, .str my_label),
         ("use_public_did".data, .bool use_public_did)] ++
    (if handshake then
        [("handshake_protocols".data,
          .arr [.str "https://didcomm.org/didexchange/1.0".data])]
      else []) ++
    (if pyFalsy metadata then [] else [("metadata".data, metadata)]))

namespace TractionApi

/-- `create_out_of_band_invitation` of `src/tools/traction_api.py:193-259`:
fetch a token, POST the invitation payload, then post-process. -/
def create_out_of_band_invitation (cfg : Config) (env : Transport)
    (alias_ : List Char) (handshake : Bool) (metadata : Json)
    (use_public_did : Bool) (my_label : List Char) :
    List HttpCall × Except PyExc (List Char) :=
  match get_bearer_token cfg env with
  | (calls, .error e) => (calls, .error e)
  | (calls, .ok _token) =>
    let call : HttpCall :=
      ⟨['p', 'o', 's', 't'], "/out-of-band/create-invitation".data,
        some (oob_payload alias_ handshake metadata use_public_did my_label)⟩
    match http_request ['p', 'o', 's', 't'] (env call) with
    | .error e => (calls ++ [call], .error e)
    | .ok result =>
      match oob_postprocess result with
      | .error e => (calls ++ [call], .error e)
      | .ok out => (calls ++ [call], .ok out)

end TractionApi

/-! ## `src/mcp_tools/traction_api_tool.py` -/

namespace McpTractionApi

/-- The executor `http_request` of
`src/mcp_tools/traction_api_tool.py:29-67`: per-method status checks —
GET/PUT/DELETE succeed only on `200`, POST on `200` or `201`; any other
status yields the error dictionary; `ValueError` for an unsupported
method; no exception handler, so a network-level failure propagates. -/
def http_request (method : List Char) (t : TransportResult) : Except PyExc Json :=
  if asciiLower method = ['g', 'e', 't'] then
    match t with
    | .response r => .ok (if r.status = 200 then r.json else errorBody r)
    | .netError m => .error (.netError m)
  else if asciiLower method = ['p', 'o', 's', 't'] then
    match t with
    | .response r =>
        .ok (if r.status = 200 ∨ r.status = 201 then r.json else errorBody r)
    | .netError m => .error (.netError m)
  else if asciiLower method = ['p', 'u', 't'] then
    match t with
    | .response r => .ok (if r.status = 200 then r.json else errorBody r)
    | .netError m => .error (.netError m)
  else if asciiLower method = ['d', 'e', 'l', 'e', 't', 'e'] then
    match t with
    | .response r => .ok (if r.status = 200 then r.json else errorBody r)
    | .netError m => .error (.netError m)
  else .error .valueError

/-- The token request issued by `get_bearer_token`
(`src/mcp_tools/traction_api_tool.py:80-82`). -/
def token_call (tenant_id api_key : List Char) : HttpCall :=
  ⟨['p', 'o', 's', 't'],
    "/multitenancy/tenant/".data ++ tenant_id ++ "/token".data,
    some (.obj [(['a', 'p', 'i', '_', 'k', 'e', 'y'], .str api_key)])⟩

/-- `get_bearer_token` of `src/mcp_tools/traction_api_tool.py:71-88`:
tenant id and API key are call arguments (no configuration check); one
POST, then `result.get("token", "")` with a truthiness check. -/
def get_bearer_token (tenant_id api_key : List Char) (env : Transport) :
    List HttpCall × Except PyExc Json :=
  match http_request ['p', 'o', 's', 't'] (env (token_call tenant_id api_key)) with
  | .error e => ([token_call tenant_id api_key], .error e)
  | .ok result =>
    match dictGet result ['t', 'o', 'k', 'e', 'n'] (.str []) with
    | .error e => ([token_call tenant_id api_key], .error e)
    | .ok tok =>
      if pyFalsy tok then
        ([token_call tenant_id api_key],
          .ok (.str "Error: Unable to retrieve token".data))
      else ([token_call tenant_id api_key], .ok tok)

/-- `list_connections` of `src/mcp_tools/traction_api_tool.py:104-161`:
the bearer token is an argument (used only for an unmodelled header); one
GET of `/connections` with the filtered query parameters. -/
def list_connections (_auth_token : List Char) (env : Transport)
    (alias_ connection_protocol invitation_key invitation_msg_id : Option (List Char))
    (limit : Int) (my_did : Option (List Char)) (offset : Int)
    (state their_did their_public_did their_role : Option (List Char)) :
    List HttpCall × Except PyExc (List Char) :=
  let call : HttpCall :=
    ⟨['g', 'e', 't'], "/connections".data,
      some (.obj (list_connections_query alias_ connection_protocol invitation_key
        invitation_msg_id limit my_did offset state their_did their_public_did their_role))⟩
  match http_request ['g', 'e', 't'] (env call) with
  | .error e => ([call], .error e)
  | .ok result => ([call], .ok (dumpsIndent2 result))

/-- `create_out_of_band_invitation` of
`src/mcp_tools/traction_api_tool.py:201-270`: POST the invitation payload,
then post-process exactly as the other copy. -/
def create_out_of_band_invitation (_auth_token : List Char) (env : Transport)
    (alias_ : List Char) (handshake : Bool) (metadata : Json)
    (use_public_did : Bool) (my_label : List Char) :
    List HttpCall × Except PyExc (List Char) :=
  let call : HttpCall :=
    ⟨['p', 'o', 's', 't'], "/out-of-band/create-invitation".data,
      some (oob_payload alias_ handshake metadata use_public_did my_label)⟩
  match http_request ['p', 'o', 's', 't'] (env call) with
  | .error e => ([call], .error e)
  | .ok result =>
    match oob_postprocess result with
    | .error e => ([call], .error e)
    | .ok out => ([call], .ok out)

end McpTractionApi

/-! ## `src/acapy_api_tool.py` -/

namespace AcapyApi

/-- The executor `http_request` of `src/acapy_api_tool.py:12-31`: dispatch
on the lowercased method and return `resp.json()` with no status check at
all; `ValueError` for an unsupported method; no exception handler, so a
network-level failure propagates. -/
def http_request (method : List Char) (t : TransportResult) : Except PyExc Json :=
  if asciiLower method = ['g', 'e', 't'] ∨ asciiLower method = ['p', 'o', 's', 't'] ∨
      asciiLower method = ['p', 'u', 't'] ∨ asciiLower method = ['d', 'e', 'l', 'e', 't', 'e'] then
    match t with
    | .response r => .ok r.json
    | .netError m => .error (.netError m)
  else .error .valueError

/-- The send-message request of `src/acapy_api_tool.py:94-96`. -/
def send_message_call (conn_id content : List Char) : HttpCall :=
  ⟨['p', 'o', 's', 't'],
    "/connections/".data ++ conn_id ++ "/send-message".data,
    some (.obj [(['c', 'o', 'n', 't', 'e', 'n', 't'], .str content)])⟩

/-- `send_message` of `src/acapy_api_tool.py:84-97`: validate that both
arguments have non-whitespace content before issuing the POST (the
`isinstance` halves of the checks cannot fail on `str`-typed input). -/
def send_message (env : Transport) (conn_id content : List Char) :
    List HttpCall × Except PyExc (List Char) :=
  if (pyStrip conn_id).isEmpty then
    ([], .ok "Error: A valid connection ID must be provided.".data)
  else if (pyStrip content).isEmpty then
    ([], .ok "Error: Message content must be a valid string.".data)
  else
    match http_request ['p', 'o', 's', 't'] (env (send_message_call conn_id content)) with
    | .error e => ([send_message_call conn_id content], .error e)
    | .ok result => ([send_message_call conn_id content], .ok (dumpsIndent2 result))

/-- The comprehension of `src/acapy_api_tool.py:208`:
`[conn for conn in connections if conn.get("state") == "active"]`. -/
def filterActive : List Json → Except PyExc (List Json)
  | [] => .ok []
  | conn :: rest =>
    match dictGet conn ['s', 't', 'a', 't', 'e'] .null with
    | .error e => .error e
    | .ok st =>
      match filterActive rest with
      | .error e => .error e
      | .ok others =>
        .ok (if jeq st (.str ['a', 'c', 't', 'i', 'v', 'e']) then conn :: others else others)

/-- The fixed lookup requests of `issue_dynamic_credential`. -/
def did_call : HttpCall :=
  ⟨['g', 'e', 't'], "/wallet/did/public".data, none⟩

/-- The `/connections` request (`src/acapy_api_tool.py:206`, also
`:246` and `:261`). -/
def connections_call : HttpCall :=
  ⟨['g', 'e', 't'], "/connections".data, none⟩

/-- The `/credential-definitions/created` request
(`src/acapy_api_tool.py:214`). -/
def cred_defs_call : HttpCall :=
  ⟨['g', 'e', 't'], "/credential-definitions/created".data, none⟩

/-- The credential-offer payload assembled by
`src/acapy_api_tool.py:224-234`; `schema_id` is always the literal
placeholder string. -/
def credential_offer_payload (connection_id issuer_did cred_def_id attributes : Json) :
    Json :=
  .obj [("connection_id".data, connection_id),
        ("issuer_did".data, issuer_did),
        ("schema_id".data, .str "PLACEHOLDER_SCHEMA_ID".data),
        ("cred_def_id".data, cred_def_id),
        ("credential_preview".data,
          .obj [("@type".data,
                  .str "https://didcomm.org/issue-credential/2.0/credential-preview".data),
                ("attributes".data, attributes)]),
        ("auto_issue".data, .bool true)]

/-- The issue request of `src/acapy_api_tool.py:237`. -/
def issue_call (payload : Json) : HttpCall :=
  ⟨['p', 'o', 's', 't'], "/issue-credential-2.0/send".data, some payload⟩

/-- The body of `issue_dynamic_credential` after its input validation
(`src/acapy_api_tool.py:191-238`): the three lookups, each with its
short-circuit error, then the credential-offer POST. -/
def issue_core (attributes : Json) (env : Transport) :
    List HttpCall × Except PyExc (List Char) :=
  match http_request ['g', 'e', 't'] (env did_call) with
    | .error e => ([did_call], .error e)
    | .ok public_did_resp =>
      match (dictGet public_did_resp "result".data (.obj [])).bind
          (fun r => dictGet r ['d', 'i', 'd'] (.str [])) with
      | .error e => ([did_call], .error e)
      | .ok issuer_did =>
        if pyFalsy issuer_did then
          ([did_call], .ok "Error: Could not retrieve public DID.".data)
        else
          match http_request ['g', 'e', 't'] (env connections_call) with
          | .error e => ([did_call, connections_call], .error e)
          | .ok connections_resp =>
            match (dictGet connections_resp "results".data (.arr [])).bind pyIter with
            | .error e => ([did_call, connections_call], .error e)
            | .ok connections =>
              match filterActive connections with
              | .error e => ([did_call, connections_call], .error e)
              | .ok active_connections =>
                match active_connections with
                | [] =>
                  ([did_call, connections_call],
                    .ok "Error: No active connections found.".data)
                | first :: _ =>
                  match dictGet first "connection_id".data .null with
                  | .error e => ([did_call, connections_call], .error e)
                  | .ok connection_id =>
                    match http_request ['g', 'e', 't'] (env cred_defs_call) with
                    | .error e =>
                      ([did_call, connections_call, cred_defs_call], .error e)
                    | .ok cred_defs_resp =>
                      match dictGet cred_defs_resp "credential_definition_ids".data
                          (.arr []) with
                      | .error e =>
                        ([did_call, connections_call, cred_defs_call], .error e)
                      | .ok cred_defs =>
                        if pyFalsy cred_defs then
                          ([did_call, connections_call, cred_defs_call],
                            .ok "Error: No credential definitions found.".data)
                        else
                          match pyIndex0 cred_defs with
                          | .error e =>
                            ([did_call, connections_call, cred_defs_call], .error e)
                          | .ok cred_def_id =>
                            let payload := credential_offer_payload connection_id
                              issuer_did cred_def_id attributes
                            match http_request ['p', 'o', 's', 't']
                                (env (issue_call payload)) with
                            | .error e =>
                              ([did_call, connections_call, cred_defs_call,
                                issue_call payload], .error e)
                            | .ok issue_resp =>
                              ([did_call, connections_call, cred_defs_call,
                                issue_call payload], .ok (dumpsIndent2 issue_resp))

/-- `issue_dynamic_credential` of `src/acapy_api_tool.py:171-238`.  The
argument is the JSON-shaped value of `credential_attributes` (`.str` for a
Python string, `.arr` for a list; anything else takes the `isinstance`
fall-through).  The textual detail of a JSON-parse exception message is
abstracted to its fixed prefix; no claim depends on it. -/
def issue_dynamic_credential (credential_attributes : Json) (env : Transport) :
    List HttpCall × Except PyExc (List Char) :=
  match credential_attributes with
  | .str s =>
    match loads s with
    | some v => issue_core v env
    | none => ([], .ok "Invalid JSON for credential attributes: ".data)
  | .arr l => issue_core (Json.arr l) env
  | _ =>
    ([], .ok
      "Invalid input type: credential_attributes should be a JSON string or a list.".data)

/-- The comprehension of `src/acapy_api_tool.py:248` and `:263`:
`[conn for conn in connections if conn.get("their_label", "").lower() ==
alias.lower()]`; `.lower()` on a non-string label raises. -/
def filterMatches (alias_ : List Char) : List Json → Except PyExc (List Json)
  | [] => .ok []
  | conn :: rest =>
    match dictGet conn "their_label".data (.str []) with
    | .error e => .error e
    | .ok lab =>
      match lab with
      | .str s =>
        match filterMatches alias_ rest with
        | .error e => .error e
        | .ok others =>
          .ok (if asciiLower s = asciiLower alias_ then conn :: others else others)
      | _ => .error .attributeError

/-- The single error object returned when no connection matches
(`src/acapy_api_tool.py:250` and `:265`). -/
def no_match_error (alias_ : List Char) : Json :=
  .obj [(['e', 'r', 'r', 'o', 'r'],
         .str ("No connections found with alias '".data ++ alias_ ++ ['\'']))]

/-- `query_connection_by_alias` of `src/acapy_api_tool.py:241-251`. -/
def query_connection_by_alias (env : Transport) (alias_ : List Char) :
    List HttpCall × Except PyExc (List Char) :=
  match http_request ['g', 'e', 't'] (env connections_call) with
  | .error e => ([connections_call], .error e)
  | .ok connections_resp =>
    match (dictGet connections_resp "results".data (.arr [])).bind pyIter with
    | .error e => ([connections_call], .error e)
    | .ok connections =>
      match filterMatches alias_ connections with
      | .error e => ([connections_call], .error e)
      | .ok ms =>
        if ms.isEmpty then
          ([connections_call], .ok (dumpsIndent2 (no_match_error alias_)))
        else ([connections_call], .ok (dumpsIndent2 (.arr ms)))

/-- The loop of `src/acapy_api_tool.py:267-277`: one result record per
matched connection — an error record embedding the connection when its
`connection_id` is falsy, otherwise a POST and a record pairing the id
with the response. -/
def fanout (env : Transport) (content : List Char) :
    List Json → List HttpCall × Except PyExc (List Json)
  | [] => ([], .ok [])
  | conn :: rest =>
    match dictGet conn "connection_id".data .null with
    | .error e => ([], .error e)
    | .ok conn_id =>
      if pyFalsy conn_id then
        let r := fanout env content rest
        (r.1, r.2.map (fun recs =>
          Json.obj [(['e', 'r', 'r', 'o', 'r'], .str "Missing connection ID".data),
                    ("connection".data, conn)] :: recs))
      else
        let call := send_message_call (pyStr conn_id) content
        match http_request ['p', 'o', 's', 't'] (env call) with
        | .error e => ([call], .error e)
        | .ok send_resp =>
          let r := fanout env content rest
          (call :: r.1, r.2.map (fun recs =>
            Json.obj [("connection_id".data, conn_id),
                      ("result".data, send_resp)] :: recs))

/-- `send_message_by_alias` of `src/acapy_api_tool.py:254-277`. -/
def send_message_by_alias (env : Transport) (alias_ content : List Char) :
    List HttpCall × Except PyExc (List Char) :=
  match http_request ['g', 'e', 't'] (env connections_call) with
  | .error e => ([connections_call], .error e)
  | .ok connections_resp =>
    match (dictGet connections_resp "results".data (.arr [])).bind pyIter with
    | .error e => ([connections_call], .error e)
    | .ok connections =>
      match filterMatches alias_ connections with
      | .error e => ([connections_call], .error e)
      | .ok ms =>
        if ms.isEmpty then
          ([connections_call], .ok (dumpsIndent2 (no_match_error alias_)))
        else
          match fanout env content ms with
          | (calls, .error e) => (connections_call :: calls, .error e)
          | (calls, .ok results) =>
            (connections_call :: calls, .ok (dumpsIndent2 (.arr results)))

end AcapyApi

/-! ## `src/mcp_tools/acapy_api_tool.py` -/

namespace McpAcapyApi

/-- `send_basic_message` of `src/mcp_tools/acapy_api_tool.py:103-116`:
validate both arguments, then call the module's `http_request`.  That
helper (`:25-44`) reads `ACAPY_BASE_URL`, a name this module never
defines (it defines `TRACTION_BASE_URL`), so reaching it raises
`NameError` before any request is issued; the validated path therefore
performs no HTTP call either way. -/
def send_basic_message (conn_id content : List Char) :
    List HttpCall × Except PyExc (List Char) :=
  if (pyStrip conn_id).isEmpty then
    ([], .ok "Error: Connection ID is required.".data)
  else if (pyStrip content).isEmpty then
    ([], .ok "Error: Message content is required.".data)
  else ([], .error .nameError)

end McpAcapyApi

/-! ## Statement helpers -/

/-- A context in which a serialized JSON value can stop: end of input or a
separator/closer.  Exactly the suffixes that follow a value in serializer
output. -/
def StopC (rest : List Char) : Prop :=
  rest = [] ∨ ∃ c r, rest = c :: r ∧ (c = ',' ∨ c = ']' ∨ c = '\x7d')

/-- The query entry contributed by one optional parameter: nothing for
`None`, a single binding otherwise. -/
def optEntry (k : List Char) (v : Option Json) : List (List Char × Json) :=
  match v with
  | some j => [(k, j)]
  | none => []

/-! ## Concrete transports and bodies, for exercising the tool models -/

/-- A transport that serves fixed bodies for the three lookup paths of the
ACA-Py tools and a status-200 empty object for every other request. -/
def mkEnv (didB connsB cdB : Json) : Transport := fun c =>
  if c.path = "/wallet/did/public".data then .response ⟨200, [], didB⟩
  else if c.path = "/connections".data then .response ⟨200, [], connsB⟩
  else if c.path = "/credential-definitions/created".data then .response ⟨200, [], cdB⟩
  else .response ⟨200, [], .obj []⟩

/-- A transport that always answers status 200 with an empty object. -/
def envNull : Transport := fun _ => .response ⟨200, [], .obj []⟩

/-- A transport that always answers status 500 with body `"boom"`. -/
def envFail500 : Transport := fun _ => .response ⟨500, "boom".data, .obj []⟩

/-- A transport that always answers status 200 with a token body. -/
def envTok : Transport :=
  fun _ => .response ⟨200, [], .obj [("token".data, .str ['t', 'k'])]⟩

/-- A transport that always fails at network level. -/
def envDown : Transport := fun _ => .netError "connection refused".data

/-- A wallet response carrying the public DID `"d"`. -/
def didBodyOk : Json :=
  .obj [("result".data, .obj [("did".data, .str ['d'])])]

/-- A `/connections` body with one active connection `"c"`. -/
def connsBodyActive : Json :=
  .obj [("results".data,
    .arr [.obj [("state".data, .str "active".data),
                ("connection_id".data, .str ['c'])]])]

/-- A `/connections` body with an empty result list. -/
def connsBodyEmpty : Json :=
  .obj [("results".data, .arr [])]

/-- A credential-definitions body with one id `"k"`. -/
def credDefsOk : Json :=
  .obj [("credential_definition_ids".data, .arr [.str ['k']])]

/-- A credential-definitions body with an empty id list. -/
def credDefsEmpty : Json :=
  .obj [("credential_definition_ids".data, .arr [])]

/-- The credential offer `issue_dynamic_credential` posts in the
environment `mkEnv didBodyOk connsBodyActive credDefsOk`. -/
def offerSent : Json :=
  AcapyApi.credential_offer_payload (.str ['c']) (.str ['d']) (.str ['k']) (.arr [])

/-- A connection record whose `their_label` is `"bob"` but which lacks a
`connection_id`. -/
def connNoId : Json :=
  .obj [("their_label".data, .str "bob".data)]

/-- A connection record labelled `"bob"` with connection id `"c1"`. -/
def connBob : Json :=
  .obj [("their_label".data, .str "bob".data),
        ("connection_id".data, .str "c1".data)]

/-- The id-less error record the fan-out produces for `connNoId`. -/
def recNoId : Json :=
  .obj [("error".data, .str "Missing connection ID".data),
        ("connection".data, connNoId)]

/-- The success record the fan-out produces for `connBob` against an
environment whose send-message response body is `{}`. -/
def recBob : Json :=
  .obj [("connection_id".data, .str "c1".data),
        ("result".data, .obj [])]

/-! ## Character and digit lemmas -/

theorem char_toNat_valid (c : Char) :
    c.toNat < 55296 ∨ (57344 ≤ c.toNat ∧ c.toNat < 1114112) := by
  have h := c.valid
  have ht : c.toNat = c.val.toNat := rfl
  rcases h with h | h
  · left
    rw [ht]
    exact_mod_cast h
  · right
    rw [ht]
    omega

theorem char_ne_of_toNat_ne {a b : Char} (h : a.toNat ≠ b.toNat) : a ≠ b :=
  fun e => h (congrArg Char.toNat e)

theorem toNat_ofNat_valid {n : Nat} (h : n < 55296 ∨ (57344 ≤ n ∧ n < 1114112)) :
    (Char.ofNat n).toNat = n := by
  unfold Char.ofNat
  split
  · rfl
  · rename_i hv
    exfalso
    rcases h with h | h
    · exact hv (Or.inl (by exact_mod_cast h))
    · exact hv (Or.inr ⟨by exact_mod_cast h.1, by exact_mod_cast h.2⟩)

theorem toNat_ofNat_small {n : Nat} (h : n < 55296) : (Char.ofNat n).toNat = n :=
  toNat_ofNat_valid (Or.inl h)

theorem skipWs_cons {c : Char} {r : List Char} (h : isJsonWs c = false) :
    skipWs (c :: r) = c :: r := by
  simp [skipWs, List.dropWhile_cons, h]

theorem natToChars_digits (n : Nat) :
    ∀ c ∈ natToChars n, 48 ≤ c.toNat ∧ c.toNat ≤ 57 := by
  induction n using Nat.strong_induction_on with
  | _ n ih =>
    intro c hc
    rw [natToChars] at hc
    split at hc
    · rename_i h
      simp only [List.mem_singleton] at hc
      subst hc
      rw [toNat_ofNat_small (by omega)]
      omega
    · rename_i h
      rw [List.mem_append] at hc
      rcases hc with hc | hc
      · exact ih (n / 10) (Nat.div_lt_self (by omega) (by omega)) c hc
      · simp only [List.mem_singleton] at hc
        subst hc
        have hm : n % 10 < 10 := Nat.mod_lt n (by omega)
        rw [toNat_ofNat_small (by omega)]
        omega

theorem natToChars_ne_nil (n : Nat) : natToChars n ≠ [] := by
  rw [natToChars]
  split
  · simp
  · simp

theorem natToChars_head_digit (n : Nat) :
    ∃ c cs, natToChars n = c :: cs ∧ 48 ≤ c.toNat ∧ c.toNat ≤ 57 := by
  rcases hl : natToChars n with _ | ⟨c, cs⟩
  · exact absurd hl (natToChars_ne_nil n)
  · refine ⟨c, cs, rfl, ?_⟩
    have := natToChars_digits n c (by rw [hl]; exact List.mem_cons_self c cs)
    exact this

theorem digitsToNat_append (xs : List Char) (c : Char) :
    digitsToNat (xs ++ [c]) = 10 * digitsToNat xs + (c.toNat - 48) := by
  simp [digitsToNat, List.foldl_append]

theorem digitsToNat_natToChars (n : Nat) : digitsToNat (natToChars n) = n := by
  induction n using Nat.strong_induction_on with
  | _ n ih =>
    rw [natToChars]
    split
    · rename_i h
      simp [digitsToNat, toNat_ofNat_small (show 48 + n < 55296 by omega)]
    · rename_i h
      rw [digitsToNat_append, ih (n / 10) (Nat.div_lt_self (by omega) (by omega)),
        toNat_ofNat_small (show 48 + n % 10 < 55296 by omega)]
      omega

theorem natToChars_zero : natToChars 0 = ['0'] := by
  rw [natToChars]
  norm_num

theorem natToChars_head_ne_zero (n : Nat) (h : n ≠ 0) :
    (natToChars n).head? ≠ some '0' := by
  induction n using Nat.strong_induction_on with
  | _ n ih =>
    rw [natToChars]
    split
    · rename_i hlt
      simp only [List.head?_cons, ne_eq, Option.some.injEq]
      intro he
      have : (Char.ofNat (48 + n)).toNat = ('0' : Char).toNat := by rw [he]
      rw [toNat_ofNat_small (by omega)] at this
      have h0 : ('0' : Char).toNat = 48 := by decide
      omega
    · rename_i hlt
      obtain ⟨c, cs, hc, hd1, hd2⟩ := natToChars_head_digit (n / 10)
      rw [hc]
      simp only [List.cons_append, List.head?_cons]
      have := ih (n / 10) (Nat.div_lt_self (by omega) (by omega))
        (by omega : n / 10 ≠ 0)
      rw [hc] at this
      simpa using this

theorem takeWhile_append_eq {p : Char → Bool} {l r : List Char}
    (hl : ∀ c ∈ l, p c = true) (hr : ∀ c rs, r = c :: rs → p c = false) :
    (l ++ r).takeWhile p = l ∧ (l ++ r).dropWhile p = r := by
  induction l with
  | nil =>
    rcases r with _ | ⟨c, rs⟩
    · simp
    · have := hr c rs rfl
      simp [List.takeWhile_cons, List.dropWhile_cons, this]
  | cons a l ihl =>
    have ha := hl a (List.mem_cons_self a l)
    have ih := ihl (fun c hc => hl c (List.mem_cons_of_mem a hc))
    simp [List.takeWhile_cons, List.dropWhile_cons, ha, ih.1, ih.2]

theorem parseIntBody_natToChars (n : Nat) (rest : List Char)
    (hstop : ∀ c rs, rest = c :: rs →
      isDigit c = false ∧ c ≠ '.' ∧ c ≠ 'e' ∧ c ≠ 'E') :
    parseIntBody (natToChars n ++ rest) = some (n, rest) := by
  have hdig : ∀ c ∈ natToChars n, isDigit c = true := by
    intro c hc
    have := natToChars_digits n c hc
    simp [isDigit]
    omega
  obtain ⟨htake, hdrop⟩ := takeWhile_append_eq hdig (fun c rs h => (hstop c rs h).1)
  rw [parseIntBody]
  simp only [htake, hdrop]
  rw [if_neg (by simp [natToChars_ne_nil n])]
  rw [if_neg ?_, if_neg ?_]
  · rw [digitsToNat_natToChars]
  · rcases rest with _ | ⟨c, rs⟩
    · simp
    · obtain ⟨_, hdot, he, hE⟩ := hstop c rs rfl
      simp [hdot, he, hE]
  · by_cases h0 : n = 0
    · subst h0
      rw [natToChars_zero]
      simp
    · have := natToChars_head_ne_zero n h0
      simp only [not_and]
      intro hh
      exact absurd hh this

theorem parseNum_intToChars (n : Int) (rest : List Char)
    (hstop : ∀ c rs, rest = c :: rs →
      isDigit c = false ∧ c ≠ '.' ∧ c ≠ 'e' ∧ c ≠ 'E') :
    parseNum (intToChars n ++ rest) = some (.num n, rest) := by
  rw [intToChars]
  by_cases hn : n < 0
  · rw [if_pos hn]
    rw [List.cons_append, parseNum]
    rw [if_pos rfl, parseIntBody_natToChars n.natAbs rest hstop]
    have he : -(n.natAbs : Int) = n := by omega
    show some (Json.num (-(n.natAbs : Int)), rest) = some (Json.num n, rest)
    rw [he]
  · rw [if_neg hn]
    obtain ⟨c, cs, hc, h48, h57⟩ := natToChars_head_digit n.natAbs
    rw [hc, List.cons_append, parseNum]
    rw [if_neg (char_ne_of_toNat_ne (by rw [show ('-' : Char).toNat = 45 from rfl]; omega))]
    rw [← List.cons_append, ← hc, parseIntBody_natToChars n.natAbs rest hstop]
    have he : (n.natAbs : Int) = n := by omega
    show some (Json.num (n.natAbs : Int), rest) = some (Json.num n, rest)
    rw [he]

/-! ## String-literal round-trip -/

theorem hexVal_hexDigitChar {d : Nat} (h : d < 16) :
    hexVal (hexDigitChar d) = some d := by
  have hall : ∀ x : Fin 16, hexVal (hexDigitChar x.val) = some x.val := by decide
  exact hall ⟨d, h⟩

theorem hex4Val_hex4 {n : Nat} (h : n < 65536) :
    hex4Val (hexDigitChar (n / 4096 % 16)) (hexDigitChar (n / 256 % 16))
      (hexDigitChar (n / 16 % 16)) (hexDigitChar (n % 16)) = some n := by
  have e1 : hexVal (hexDigitChar (n / 4096 % 16)) = some (n / 4096 % 16) :=
    hexVal_hexDigitChar (Nat.mod_lt _ (by omega))
  have e2 : hexVal (hexDigitChar (n / 256 % 16)) = some (n / 256 % 16) :=
    hexVal_hexDigitChar (Nat.mod_lt _ (by omega))
  have e3 : hexVal (hexDigitChar (n / 16 % 16)) = some (n / 16 % 16) :=
    hexVal_hexDigitChar (Nat.mod_lt _ (by omega))
  have e4 : hexVal (hexDigitChar (n % 16)) = some (n % 16) :=
    hexVal_hexDigitChar (Nat.mod_lt _ (by omega))
  rw [hex4Val, e1, e2, e3, e4]
  show some (((n / 4096 % 16 * 16 + n / 256 % 16) * 16 + n / 16 % 16) * 16 + n % 16) = some n
  congr 1
  omega

set_option maxRecDepth 40000 in
/-- The high-surrogate formula of CPython (`0xd800 | ((m >> 10) & 0x3ff)`)
is the arithmetic `0xD800 + m / 0x400` used by `escapeChar`. -/
theorem surrogateHi_eq_bitwise (m : Nat) (h : m < 1048576) :
    0xD800 ||| ((m >>> 10) &&& 0x3FF) = 0xD800 + m / 0x400 := by
  have h1 : m >>> 10 = m / 1024 := Nat.shiftRight_eq_div_pow m 10
  have h2 : m / 1024 &&& 0x3FF = m / 1024 % 1024 := by
    have := Nat.and_pow_two_sub_one_eq_mod (m / 1024) 10
    norm_num at this
    exact this
  have h3 : m / 1024 % 1024 = m / 1024 := Nat.mod_eq_of_lt (by omega)
  have h4 : ∀ y : Fin 1024, 0xD800 ||| (y : Nat) = 0xD800 + (y : Nat) := by decide
  rw [h1, h2, h3]
  exact h4 ⟨m / 1024, by omega⟩

set_option maxRecDepth 40000 in
/-- The low-surrogate formula of CPython (`0xdc00 | (m & 0x3ff)`)
is the arithmetic `0xDC00 + m % 0x400` used by `escapeChar`. -/
theorem surrogateLo_eq_bitwise (m : Nat) :
    0xDC00 ||| (m &&& 0x3FF) = 0xDC00 + m % 0x400 := by
  have h2 : m &&& 0x3FF = m % 1024 := by
    have := Nat.and_pow_two_sub_one_eq_mod m 10
    norm_num at this
    exact this
  have h4 : ∀ y : Fin 1024, 0xDC00 ||| (y : Nat) = 0xDC00 + (y : Nat) := by decide
  rw [h2]
  exact h4 ⟨m % 1024, Nat.mod_lt _ (by omega)⟩

theorem psb_quote (f : Nat) (X : List Char) :
    parseStringBody (f + 1) ('"' :: X) = some ([], X) := by
  rw [parseStringBody, if_pos rfl]

theorem psb_backslash (f : Nat) (X : List Char) (d : Char) (r2 : List Char)
    (hu : unescape X = some (d, r2)) :
    parseStringBody (f + 1) ('\\' :: X) = consStr d (parseStringBody f r2) := by
  rw [parseStringBody, if_neg (by decide), if_pos rfl, hu]

theorem psb_lit (f : Nat) (c : Char) (X : List Char) (h1 : c ≠ '"')
    (h2 : c ≠ '\\') (h3 : ¬c.toNat < 0x20) :
    parseStringBody (f + 1) (c :: X) = consStr c (parseStringBody f X) := by
  rw [parseStringBody, if_neg h1, if_neg h2, if_neg h3]

theorem unescape_quote (X : List Char) : unescape ('"' :: X) = some ('"', X) := by
  simp [unescape]

theorem unescape_backslash (X : List Char) : unescape ('\\' :: X) = some ('\\', X) := by
  simp [unescape]

theorem unescape_b (X : List Char) : unescape ('b' :: X) = some ('\x08', X) := by
  simp [unescape]

theorem unescape_f (X : List Char) : unescape ('f' :: X) = some ('\x0c', X) := by
  simp [unescape]

theorem unescape_n (X : List Char) : unescape ('n' :: X) = some ('\n', X) := by
  simp [unescape]

theorem unescape_r (X : List Char) : unescape ('r' :: X) = some ('\r', X) := by
  simp [unescape]

theorem unescape_t (X : List Char) : unescape ('t' :: X) = some ('\t', X) := by
  simp [unescape]

theorem unescape_u_bmp (n : Nat) (X : List Char) (hn : n < 65536)
    (hcond : n < 0xD800 ∨ 0xDFFF < n) :
    unescape ('u' :: (hex4 n ++ X)) = some (Char.ofNat n, X) := by
  simp only [hex4, List.cons_append, List.nil_append]
  simp [unescape, hex4Val_hex4 hn, hcond]

theorem unescape_u_astral (m : Nat) (X : List Char) (hm : m < 1048576) :
    unescape ('u' :: (hex4 (0xD800 + m / 0x400) ++
      '\\' :: 'u' :: hex4 (0xDC00 + m % 0x400) ++ X)) =
      some (Char.ofNat (0x10000 + m), X) := by
  have hmod : m % 0x400 < 0x400 := Nat.mod_lt _ (by omega)
  have hhi : 0xD800 + m / 0x400 < 65536 := by omega
  have hlo : 0xDC00 + m % 0x400 < 65536 := by omega
  have hx1 := hex4Val_hex4 hhi
  have hx2 := hex4Val_hex4 hlo
  have hc1a : ¬0xD800 + m / 0x400 < 0xD800 := by omega
  have hc1b : ¬0xDFFF < 0xD800 + m / 0x400 := by omega
  have hc2 : 0xD800 + m / 0x400 < 0xDC00 := by omega
  have hc3 : 0xDC00 ≤ 0xDC00 + m % 0x400 ∧ 0xDC00 + m % 0x400 ≤ 0xDFFF := by omega
  have harith : 0xD800 + m / 0x400 - 0xD800 = m / 0x400 := by omega
  have harith2 : 0xDC00 + m % 0x400 - 0xDC00 = m % 0x400 := by omega
  have harith3 : 0x10000 + m / 0x400 * 0x400 + m % 0x400 = 0x10000 + m := by omega
  simp only [hex4, List.cons_append, List.nil_append, List.append_assoc]
  simp [unescape, hx1, hx2, hc1a, hc1b, hc2, hc3, harith, harith2, harith3]

theorem consStr_some {c : Char} {o : Option (List Char × List Char)}
    {s r : List Char} (h : o = some (s, r)) : consStr c o = some (c :: s, r) := by
  rw [h]
  rfl

theorem parseStringBody_escBody (s : List Char) :
    ∀ (fuel : Nat) (rest : List Char), s.length + 1 ≤ fuel →
      parseStringBody fuel (escBody s ++ '"' :: rest) = some (s, rest) := by
  induction s with
  | nil =>
    intro fuel rest h
    obtain ⟨f, rfl⟩ : ∃ f, fuel = f + 1 := ⟨fuel - 1, by omega⟩
    exact psb_quote f rest
  | cons c cs ih =>
    intro fuel rest h
    obtain ⟨f, rfl⟩ : ∃ f, fuel = f + 1 := ⟨fuel - 1, by omega⟩
    have hf : cs.length + 1 ≤ f := by
      simp only [List.length_cons] at h
      omega
    have ihf := ih f rest hf
    rw [escBody, List.append_assoc, escapeChar]
    by_cases h1 : c = '"'
    · subst h1
      rw [if_pos rfl, List.cons_append, List.singleton_append,
        psb_backslash f _ _ _ (unescape_quote _)]
      exact consStr_some ihf
    rw [if_neg h1]
    by_cases h2 : c = '\\'
    · subst h2
      rw [if_pos rfl, List.cons_append, List.singleton_append,
        psb_backslash f _ _ _ (unescape_backslash _)]
      exact consStr_some ihf
    rw [if_neg h2]
    by_cases h3 : c = '\x08'
    · subst h3
      rw [if_pos rfl, List.cons_append, List.singleton_append,
        psb_backslash f _ _ _ (unescape_b _)]
      exact consStr_some ihf
    rw [if_neg h3]
    by_cases h4 : c = '\x0c'
    · subst h4
      rw [if_pos rfl, List.cons_append, List.singleton_append,
        psb_backslash f _ _ _ (unescape_f _)]
      exact consStr_some ihf
    rw [if_neg h4]
    by_cases h5 : c = '\n'
    · subst h5
      rw [if_pos rfl, List.cons_append, List.singleton_append,
        psb_backslash f _ _ _ (unescape_n _)]
      exact consStr_some ihf
    rw [if_neg h5]
    by_cases h6 : c = '\r'
    · subst h6
      rw [if_pos rfl, List.cons_append, List.singleton_append,
        psb_backslash f _ _ _ (unescape_r _)]
      exact consStr_some ihf
    rw [if_neg h6]
    by_cases h7 : c = '\t'
    · subst h7
      rw [if_pos rfl, List.cons_append, List.singleton_append,
        psb_backslash f _ _ _ (unescape_t _)]
      exact consStr_some ihf
    rw [if_neg h7]
    by_cases h8 : c.toNat < 0x20 ∨ 0x7E < c.toNat
    · rw [if_pos h8]
      by_cases h9 : c.toNat < 0x10000
      · -- basic-plane escape
        rw [if_pos h9]
        have hval := char_toNat_valid c
        have hcond : c.toNat < 0xD800 ∨ 0xDFFF < c.toNat := by omega
        rw [List.cons_append, List.cons_append,
          psb_backslash f _ _ _ (unescape_u_bmp c.toNat _ (by omega) hcond)]
        rw [Char.ofNat_toNat]
        exact consStr_some ihf
      · -- astral character: surrogate pair
        rw [if_neg h9]
        have hval := char_toNat_valid c
        have hm : c.toNat - 0x10000 < 1048576 := by omega
        have hshape :
            ('\\' :: 'u' :: hex4 (0xD800 + (c.toNat - 0x10000) / 0x400) ++
              '\\' :: 'u' :: hex4 (0xDC00 + (c.toNat - 0x10000) % 0x400)) ++
                (escBody cs ++ '"' :: rest) =
              '\\' :: ('u' :: (hex4 (0xD800 + (c.toNat - 0x10000) / 0x400) ++
                '\\' :: 'u' :: hex4 (0xDC00 + (c.toNat - 0x10000) % 0x400) ++
                  (escBody cs ++ '"' :: rest))) := by
          simp [hex4]
        rw [hshape, psb_backslash f _ _ _ (unescape_u_astral _ _ hm)]
        have harith : 0x10000 + (c.toNat - 0x10000) = c.toNat := by omega
        rw [harith, Char.ofNat_toNat]
        exact consStr_some ihf
    · -- printable ASCII character, emitted literally
      rw [if_neg h8]
      push_neg at h8
      rw [List.singleton_append, psb_lit f c _ h1 h2 (by omega)]
      exact consStr_some ihf

/-! ## Shape facts about serializer output -/

theorem not_ws_of_toNat {c : Char}
    (h : c.toNat ≠ 32 ∧ c.toNat ≠ 9 ∧ c.toNat ≠ 10 ∧ c.toNat ≠ 13) :
    isJsonWs c = false := by
  simp only [isJsonWs, decide_eq_false_iff_not, not_or]
  refine ⟨?_, ?_, ?_, ?_⟩ <;> refine char_ne_of_toNat_ne ?_
  · show c.toNat ≠ 32
    omega
  · show c.toNat ≠ 9
    omega
  · show c.toNat ≠ 10
    omega
  · show c.toNat ≠ 13
    omega

theorem intToChars_head (n : Int) :
    ∃ c cs, intToChars n = c :: cs ∧ (c = '-' ∨ 48 ≤ c.toNat ∧ c.toNat ≤ 57) := by
  rw [intToChars]
  by_cases hn : n < 0
  · exact ⟨'-', natToChars n.natAbs, by rw [if_pos hn], Or.inl rfl⟩
  · obtain ⟨c, cs, hc, h1, h2⟩ := natToChars_head_digit n.natAbs
    exact ⟨c, cs, by rw [if_neg hn, hc], Or.inr ⟨h1, h2⟩⟩

theorem num_head_facts {c : Char} (h : c = '-' ∨ 48 ≤ c.toNat ∧ c.toNat ≤ 57) :
    isJsonWs c = false ∧ c ≠ 'n' ∧ c ≠ 't' ∧ c ≠ 'f' ∧ c ≠ '"' ∧ c ≠ '[' ∧
      c ≠ '\x7b' ∧ c ≠ ']' ∧ c ≠ '\x7d' := by
  have htn : c.toNat = 45 ∨ 48 ≤ c.toNat ∧ c.toNat ≤ 57 := by
    rcases h with h | h
    · subst h
      left
      rfl
    · exact Or.inr h
  refine ⟨not_ws_of_toNat (by omega), ?_, ?_, ?_, ?_, ?_, ?_, ?_, ?_⟩ <;>
    refine char_ne_of_toNat_ne ?_
  · show c.toNat ≠ 110
    omega
  · show c.toNat ≠ 116
    omega
  · show c.toNat ≠ 102
    omega
  · show c.toNat ≠ 34
    omega
  · show c.toNat ≠ 91
    omega
  · show c.toNat ≠ 123
    omega
  · show c.toNat ≠ 93
    omega
  · show c.toNat ≠ 125
    omega

theorem dumps_head (v : Json) :
    ∃ c cs, dumps v = c :: cs ∧ isJsonWs c = false ∧ c ≠ ']' ∧ c ≠ '\x7d' := by
  cases v with
  | null => exact ⟨'n', ['u', 'l', 'l'], rfl, by decide, by decide, by decide⟩
  | bool b =>
    cases b
    · exact ⟨'f', ['a', 'l', 's', 'e'], rfl, by decide, by decide, by decide⟩
    · exact ⟨'t', ['r', 'u', 'e'], rfl, by decide, by decide, by decide⟩
  | num n =>
    obtain ⟨c, cs, hc, hd⟩ := intToChars_head n
    obtain ⟨hws, _, _, _, _, _, _, h8, h9⟩ := num_head_facts hd
    exact ⟨c, cs, hc, hws, h8, h9⟩
  | str s => exact ⟨'"', escBody s ++ ['"'], rfl, by decide, by decide, by decide⟩
  | arr l => exact ⟨'[', dumpsElems l ++ [']'], rfl, by decide, by decide, by decide⟩
  | obj fs => exact ⟨'\x7b', dumpsFields fs ++ ['\x7d'], rfl, by decide, by decide, by decide⟩

theorem dumpsElems_cons_head (v : Json) (vs : List Json) :
    ∃ c t, dumpsElems (v :: vs) = c :: t ∧ isJsonWs c = false ∧ c ≠ ']' ∧ c ≠ '\x7d' := by
  obtain ⟨c, cs, hc, hws, h1, h2⟩ := dumps_head v
  cases vs with
  | nil => exact ⟨c, cs, by rw [dumpsElems, hc], hws, h1, h2⟩
  | cons w ws =>
    exact ⟨c, cs ++ ',' :: dumpsElems (w :: ws),
      by rw [dumpsElems, hc, List.cons_append], hws, h1, h2⟩

theorem dumpsFields_cons_head (f : List Char × Json) (fs : List (List Char × Json)) :
    ∃ t, dumpsFields (f :: fs) = '"' :: t := by
  obtain ⟨k, v⟩ := f
  cases fs with
  | nil =>
    exact ⟨escBody k ++ ['"'] ++ ':' :: dumps v, by rw [dumpsFields]; rfl⟩
  | cons g gs =>
    exact ⟨escBody k ++ ['"'] ++ ':' :: dumps v ++ ',' :: dumpsFields (g :: gs),
      by rw [dumpsFields]; rfl⟩

theorem escBody_length_ge (s : List Char) : s.length ≤ (escBody s).length := by
  induction s with
  | nil => simp [escBody]
  | cons c cs ih =>
    have hc : 1 ≤ (escapeChar c).length := by
      rw [escapeChar]
      repeat' split
      all_goals simp
    rw [escBody, List.length_append, List.length_cons]
    omega

/-! ## Fuel accounting -/

theorem jsize_pos (v : Json) : 1 ≤ jsize v := by
  cases v <;> rw [jsize] <;> omega

theorem jsizeL_cons (v : Json) (vs : List Json) :
    jsizeL (v :: vs) = 1 + jsize v + jsizeL vs := by
  rw [jsizeL]

theorem jsizeF_cons (k : List Char) (v : Json) (fs : List (List Char × Json)) :
    jsizeF ((k, v) :: fs) = 1 + jsize v + jsizeF fs := by
  rw [jsizeF]

theorem jsizeL_cons_pos (v : Json) (vs : List Json) : 1 ≤ jsizeL (v :: vs) := by
  rw [jsizeL_cons]
  omega

theorem jsizeF_cons_pos (f : List Char × Json) (fs : List (List Char × Json)) :
    1 ≤ jsizeF (f :: fs) := by
  obtain ⟨k, v⟩ := f
  rw [jsizeF_cons]
  omega

theorem jsize_le_dumps :
    (∀ v, jsize v ≤ (dumps v).length) ∧
      (∀ fs, jsizeF fs ≤ (dumpsFields fs).length + 1) ∧
      (∀ l, jsizeL l ≤ (dumpsElems l).length + 1) := by
  refine dumps.mutual_induct (fun v => jsize v ≤ (dumps v).length)
    (fun fs => jsizeF fs ≤ (dumpsFields fs).length + 1)
    (fun l => jsizeL l ≤ (dumpsElems l).length + 1) ?_ ?_ ?_ ?_ ?_ ?_ ?_ ?_ ?_ ?_ ?_ ?_ ?_
  · simp [jsize, dumps]
  · simp [jsize, dumps]
  · simp [jsize, dumps]
  · intro n
    have := natToChars_ne_nil n.natAbs
    rw [jsize]
    show 1 ≤ (dumps (Json.num n)).length
    rw [dumps, intToChars]
    split
    · simp
    · rcases hl : natToChars n.natAbs with _ | ⟨c, cs⟩
      · exact absurd hl this
      · simp
  · intro s
    rw [jsize]
    show 1 ≤ (dumps (Json.str s)).length
    rw [dumps]
    simp [dumpsString]
  · intro l ih
    rw [jsize, dumps]
    simp only [List.length_cons, List.length_append, List.length_singleton]
    omega
  · intro fs ih
    rw [jsize, dumps]
    simp only [List.length_cons, List.length_append, List.length_singleton]
    omega
  · simp [jsizeL, dumpsElems]
  · intro v ih
    rw [jsizeL_cons, jsizeL, dumpsElems]
    omega
  · intro v w vs ihv ihl
    rw [jsizeL_cons, dumpsElems]
    simp only [List.length_append, List.length_cons]
    omega
  · simp [jsizeF, dumpsFields]
  · intro k v ih
    rw [jsizeF_cons, jsizeF, dumpsFields]
    simp only [List.length_append, List.length_cons]
    omega
  · intro k v f fs ihv ihf
    rw [jsizeF_cons, dumpsFields]
    simp only [List.length_append, List.length_cons]
    omega

/-! ## Parser dispatch bridges -/

theorem parseVal_cons (fuel : Nat) (c : Char) (r : List Char)
    (hws : isJsonWs c = false) :
    parseVal (fuel + 1) (c :: r) =
      (if c = 'n' then parseNullTail r
       else if c = 't' then parseTrueTail r
       else if c = 'f' then parseFalseTail r
       else if c = '"' then
         (parseStringBody (r.length + 1) r).map (fun p => (.str p.1, p.2))
       else if c = '[' then parseArrBody fuel r
       else if c = '\x7b' then parseObjBody fuel r
       else parseNum (c :: r)) := by
  rw [parseVal, skipWs_cons hws]

theorem parseArrBody_cons (fuel : Nat) (r : List Char) (c2 : Char) (r2 : List Char)
    (h : skipWs r = c2 :: r2) :
    parseArrBody fuel r =
      (if c2 = ']' then some (.arr [], r2)
       else (parseElems fuel r).map (fun p => (.arr p.1, p.2))) := by
  rw [parseArrBody, h]

theorem parseObjBody_cons (fuel : Nat) (r : List Char) (c2 : Char) (r2 : List Char)
    (h : skipWs r = c2 :: r2) :
    parseObjBody fuel r =
      (if c2 = '\x7d' then some (.obj [], r2)
       else (parseFields fuel r).map (fun p => (.obj p.1, p.2))) := by
  rw [parseObjBody, h]

theorem parseElems_step (fuel : Nat) (s : List Char) (v : Json) (r : List Char)
    (h : parseVal fuel s = some (v, r)) :
    parseElems (fuel + 1) s = parseElemsSep fuel v r := by
  rw [parseElems, h]

theorem parseElemsSep_cons (fuel : Nat) (v : Json) (c : Char) (r2 : List Char)
    (hws : isJsonWs c = false) :
    parseElemsSep fuel v (c :: r2) =
      (if c = ',' then (parseElems fuel r2).map (fun p => (v :: p.1, p.2))
       else if c = ']' then some ([v], r2)
       else none) := by
  rw [parseElemsSep, skipWs_cons hws]

theorem parseFields_cons (fuel : Nat) (c : Char) (r : List Char)
    (hws : isJsonWs c = false) :
    parseFields (fuel + 1) (c :: r) =
      (if c = '"' then parseFieldKey fuel r else none) := by
  rw [parseFields, skipWs_cons hws]

theorem parseFieldKey_step (fuel : Nat) (r : List Char) (k : List Char)
    (r2 : List Char) (h : parseStringBody (r.length + 1) r = some (k, r2)) :
    parseFieldKey fuel r = parseFieldColon fuel k r2 := by
  rw [parseFieldKey, h]

theorem parseFieldColon_cons (fuel : Nat) (k : List Char) (c2 : Char)
    (r3 : List Char) (hws : isJsonWs c2 = false) :
    parseFieldColon fuel k (c2 :: r3) =
      (if c2 = ':' then parseFieldValue fuel k r3 else none) := by
  rw [parseFieldColon, skipWs_cons hws]

theorem parseFieldValue_step (fuel : Nat) (k : List Char) (r3 : List Char)
    (v : Json) (r4 : List Char) (h : parseVal fuel r3 = some (v, r4)) :
    parseFieldValue fuel k r3 = parseFieldsSep fuel k v r4 := by
  rw [parseFieldValue, h]

theorem parseFieldsSep_cons (fuel : Nat) (k : List Char) (v : Json) (c3 : Char)
    (r5 : List Char) (hws : isJsonWs c3 = false) :
    parseFieldsSep fuel k v (c3 :: r5) =
      (if c3 = ',' then (parseFields fuel r5).map (fun p => ((k, v) :: p.1, p.2))
       else if c3 = '\x7d' then some ([(k, v)], r5)
       else none) := by
  rw [parseFieldsSep, skipWs_cons hws]

theorem stopC_num_facts {rest : List Char} (h : StopC rest) :
    ∀ c rs, rest = c :: rs → isDigit c = false ∧ c ≠ '.' ∧ c ≠ 'e' ∧ c ≠ 'E' := by
  intro c rs hr
  rcases h with h | ⟨c', r', hr', hc'⟩
  · rw [h] at hr
    cases hr
  · rw [hr'] at hr
    injection hr with h1 h2
    subst h1
    rcases hc' with h | h | h <;> subst h <;> exact ⟨by decide, by decide, by decide, by decide⟩

theorem parseVal_num (fuel : Nat) (n : Int) (rest : List Char) (hstop : StopC rest) :
    parseVal (fuel + 1) (intToChars n ++ rest) = some (.num n, rest) := by
  obtain ⟨c, cs, hc, hd⟩ := intToChars_head n
  obtain ⟨hws, h1, h2, h3, h4, h5, h6, _, _⟩ := num_head_facts hd
  rw [hc, List.cons_append, parseVal_cons fuel c _ hws,
    if_neg h1, if_neg h2, if_neg h3, if_neg h4, if_neg h5, if_neg h6,
    ← List.cons_append, ← hc]
  exact parseNum_intToChars n rest (stopC_num_facts hstop)

theorem parseVal_str (fuel : Nat) (s : List Char) (rest : List Char) :
    parseVal (fuel + 1) (dumpsString s ++ rest) = some (.str s, rest) := by
  have hshape : dumpsString s ++ rest = '"' :: (escBody s ++ '"' :: rest) := by
    rw [dumpsString]
    simp
  rw [hshape, parseVal_cons fuel '"' _ (by decide),
    if_neg (by decide), if_neg (by decide), if_neg (by decide), if_pos rfl]
  rw [parseStringBody_escBody s _ rest ?_]
  · rfl
  · have := escBody_length_ge s
    simp only [List.length_append, List.length_cons]
    omega

theorem parse_dumps : ∀ fuel : Nat,
    (∀ v rest, jsize v ≤ fuel → StopC rest →
        parseVal fuel (dumps v ++ rest) = some (v, rest)) ∧
    (∀ v vs rest, jsizeL (v :: vs) ≤ fuel →
        parseElems fuel (dumpsElems (v :: vs) ++ ']' :: rest) = some (v :: vs, rest)) ∧
    (∀ f fs rest, jsizeF (f :: fs) ≤ fuel →
        parseFields fuel (dumpsFields (f :: fs) ++ '\x7d' :: rest) =
          some (f :: fs, rest)) := by
  intro fuel
  induction fuel with
  | zero =>
    refine ⟨?_, ?_, ?_⟩
    · intro v rest h _
      exact absurd h (by have := jsize_pos v; omega)
    · intro v vs rest h
      exact absurd h (by have := jsizeL_cons_pos v vs; omega)
    · intro f fs rest h
      exact absurd h (by have := jsizeF_cons_pos f fs; omega)
  | succ fuel ih =>
    obtain ⟨ihv, ihe, ihf⟩ := ih
    refine ⟨?_, ?_, ?_⟩
    · -- one value
      intro v rest hs hstop
      cases v with
      | null =>
        have hd : dumps Json.null = ['n', 'u', 'l', 'l'] := rfl
        rw [hd, List.cons_append, parseVal_cons fuel 'n' _ (by decide), if_pos rfl]
        simp [parseNullTail]
      | bool b =>
        cases b
        · have hd : dumps (Json.bool false) = ['f', 'a', 'l', 's', 'e'] := rfl
          rw [hd, List.cons_append, parseVal_cons fuel 'f' _ (by decide),
            if_neg (by decide), if_neg (by decide), if_pos rfl]
          simp [parseFalseTail]
        · have hd : dumps (Json.bool true) = ['t', 'r', 'u', 'e'] := rfl
          rw [hd, List.cons_append, parseVal_cons fuel 't' _ (by decide),
            if_neg (by decide), if_pos rfl]
          simp [parseTrueTail]
      | num n =>
        have hd : dumps (Json.num n) = intToChars n := rfl
        rw [hd]
        exact parseVal_num fuel n rest hstop
      | str s =>
        have hd : dumps (Json.str s) = dumpsString s := rfl
        rw [hd]
        exact parseVal_str fuel s rest
      | arr l =>
        have hd : dumps (Json.arr l) = '[' :: (dumpsElems l ++ [']']) := by
          rw [dumps, List.cons_append]
        cases l with
        | nil =>
          rw [hd]
          have he : dumpsElems ([] : List Json) = [] := rfl
          rw [he, List.nil_append, List.cons_append, List.singleton_append,
            parseVal_cons fuel '[' _ (by decide),
            if_neg (by decide), if_neg (by decide), if_neg (by decide),
            if_neg (by decide), if_pos rfl,
            parseArrBody_cons fuel _ ']' rest (skipWs_cons (by decide)),
            if_pos rfl]
        | cons w ws =>
          rw [hd, List.cons_append, List.append_assoc, List.singleton_append,
            parseVal_cons fuel '[' _ (by decide),
            if_neg (by decide), if_neg (by decide), if_neg (by decide),
            if_neg (by decide), if_pos rfl]
          obtain ⟨c0, t, hct, hws0, hne1, hne2⟩ := dumpsElems_cons_head w ws
          have hskip : skipWs (dumpsElems (w :: ws) ++ ']' :: rest) =
              c0 :: (t ++ ']' :: rest) := by
            rw [hct, List.cons_append, skipWs_cons hws0]
          rw [parseArrBody_cons fuel _ c0 _ hskip, if_neg hne1]
          have hsz : jsizeL (w :: ws) ≤ fuel := by
            rw [jsize] at hs
            omega
          rw [ihe w ws rest hsz]
          rfl
      | obj fs =>
        have hd : dumps (Json.obj fs) = '\x7b' :: (dumpsFields fs ++ ['\x7d']) := by
          rw [dumps, List.cons_append]
        cases fs with
        | nil =>
          rw [hd]
          have he : dumpsFields ([] : List (List Char × Json)) = [] := rfl
          rw [he, List.nil_append, List.cons_append, List.singleton_append,
            parseVal_cons fuel '\x7b' _ (by decide),
            if_neg (by decide), if_neg (by decide), if_neg (by decide),
            if_neg (by decide), if_neg (by decide), if_pos rfl,
            parseObjBody_cons fuel _ '\x7d' rest (skipWs_cons (by decide)),
            if_pos rfl]
        | cons g gs =>
          rw [hd, List.cons_append, List.append_assoc, List.singleton_append,
            parseVal_cons fuel '\x7b' _ (by decide),
            if_neg (by decide), if_neg (by decide), if_neg (by decide),
            if_neg (by decide), if_neg (by decide), if_pos rfl]
          obtain ⟨t, hct⟩ := dumpsFields_cons_head g gs
          have hskip : skipWs (dumpsFields (g :: gs) ++ '\x7d' :: rest) =
              '"' :: (t ++ '\x7d' :: rest) := by
            rw [hct, List.cons_append, skipWs_cons (by decide)]
          rw [parseObjBody_cons fuel _ '"' _ hskip, if_neg (by decide)]
          have hsz : jsizeF (g :: gs) ≤ fuel := by
            rw [jsize] at hs
            omega
          rw [ihf g gs rest hsz]
          rfl
    · -- array elements
      intro v vs rest hsz
      cases vs with
      | nil =>
        have he : dumpsElems [v] = dumps v := rfl
        rw [he]
        have hv : parseVal fuel (dumps v ++ ']' :: rest) = some (v, ']' :: rest) := by
          refine ihv v (']' :: rest) ?_ ?_
          · rw [jsizeL_cons] at hsz
            omega
          · exact Or.inr ⟨']', rest, rfl, Or.inr (Or.inl rfl)⟩
        rw [parseElems_step fuel _ v _ hv,
          parseElemsSep_cons fuel v ']' rest (by decide),
          if_neg (by decide), if_pos rfl]
      | cons w ws =>
        have he : dumpsElems (v :: w :: ws) = dumps v ++ ',' :: dumpsElems (w :: ws) := by
          rw [dumpsElems]
        rw [he, List.append_assoc, List.cons_append]
        have hv : parseVal fuel
            (dumps v ++ (',' :: (dumpsElems (w :: ws) ++ ']' :: rest))) =
            some (v, ',' :: (dumpsElems (w :: ws) ++ ']' :: rest)) := by
          refine ihv v _ ?_ ?_
          · rw [jsizeL_cons] at hsz
            have := jsizeL_cons_pos w ws
            omega
          · exact Or.inr ⟨',', _, rfl, Or.inl rfl⟩
        rw [parseElems_step fuel _ v _ hv,
          parseElemsSep_cons fuel v ',' _ (by decide), if_pos rfl]
        have hsz2 : jsizeL (w :: ws) ≤ fuel := by
          rw [jsizeL_cons] at hsz
          have := jsize_pos v
          omega
        rw [ihe w ws rest hsz2]
        rfl
    · -- object fields
      intro f fs rest hsz
      obtain ⟨k, v⟩ := f
      have hkey : ∀ (after : List Char),
          parseFieldKey fuel (escBody k ++ '"' :: after) = parseFieldColon fuel k after := by
        intro after
        refine parseFieldKey_step fuel _ k after ?_
        refine parseStringBody_escBody k _ after ?_
        have := escBody_length_ge k
        simp only [List.length_append, List.length_cons]
        omega
      cases fs with
      | nil =>
        have he : dumpsFields [(k, v)] = dumpsString k ++ ':' :: dumps v := rfl
        rw [he]
        have hshape : (dumpsString k ++ ':' :: dumps v) ++ '\x7d' :: rest =
            '"' :: (escBody k ++ '"' :: (':' :: (dumps v ++ '\x7d' :: rest))) := by
          rw [dumpsString]
          simp
        rw [hshape, parseFields_cons fuel '"' _ (by decide), if_pos rfl, hkey,
          parseFieldColon_cons fuel k ':' _ (by decide), if_pos rfl]
        have hv : parseVal fuel (dumps v ++ '\x7d' :: rest) =
            some (v, '\x7d' :: rest) := by
          refine ihv v _ ?_ ?_
          · rw [jsizeF_cons] at hsz
            omega
          · exact Or.inr ⟨'\x7d', rest, rfl, Or.inr (Or.inr rfl)⟩
        rw [parseFieldValue_step fuel k _ v _ hv,
          parseFieldsSep_cons fuel k v '\x7d' rest (by decide),
          if_neg (by decide), if_pos rfl]
      | cons g gs =>
        have he : dumpsFields ((k, v) :: g :: gs) =
            dumpsString k ++ ':' :: dumps v ++ ',' :: dumpsFields (g :: gs) := by
          rw [dumpsFields]
        rw [he]
        have hshape :
            (dumpsString k ++ ':' :: dumps v ++ ',' :: dumpsFields (g :: gs)) ++
                '\x7d' :: rest =
              '"' :: (escBody k ++ '"' :: (':' ::
                (dumps v ++ (',' :: (dumpsFields (g :: gs) ++ '\x7d' :: rest))))) := by
          rw [dumpsString]
          simp
        rw [hshape, parseFields_cons fuel '"' _ (by decide), if_pos rfl, hkey,
          parseFieldColon_cons fuel k ':' _ (by decide), if_pos rfl]
        have hv : parseVal fuel
            (dumps v ++ (',' :: (dumpsFields (g :: gs) ++ '\x7d' :: rest))) =
            some (v, ',' :: (dumpsFields (g :: gs) ++ '\x7d' :: rest)) := by
          refine ihv v _ ?_ ?_
          · rw [jsizeF_cons] at hsz
            have := jsizeF_cons_pos g gs
            omega
          · exact Or.inr ⟨',', _, rfl, Or.inl rfl⟩
        rw [parseFieldValue_step fuel k _ v _ hv,
          parseFieldsSep_cons fuel k v ',' _ (by decide), if_pos rfl]
        have hsz2 : jsizeF (g :: gs) ≤ fuel := by
          rw [jsizeF_cons] at hsz
          have := jsize_pos v
          omega
        rw [ihf g gs rest hsz2]
        rfl

theorem loads_dumps (v : Json) : loads (dumps v) = some v := by
  rw [loads]
  have hfuel : jsize v ≤ (dumps v).length + 1 := by
    have := jsize_le_dumps.1 v
    omega
  have h := (parse_dumps ((dumps v).length + 1)).1 v [] hfuel (Or.inl rfl)
  rw [List.append_nil] at h
  rw [h]
  rfl

/-! ## Base64 round-trip -/

theorem b64val_b64char {n : Nat} (h : n < 64) : b64val (b64char n) = some n := by
  have hall : ∀ x : Fin 64, b64val (b64char x.val) = some x.val := by decide
  exact hall ⟨n, h⟩

theorem b64char_ne_pad {n : Nat} (h : n < 64) : b64char n ≠ '=' := by
  have hall : ∀ x : Fin 64, b64char x.val ≠ '=' := by decide
  exact hall ⟨n, h⟩

theorem b64decode_b64encode : ∀ bs : List Nat, (∀ b ∈ bs, b < 256) →
    b64decode (b64encode bs) = some bs := by
  intro bs
  induction bs using b64encode.induct with
  | case1 =>
    intro _
    rfl
  | case2 a =>
    intro h
    have ha : a < 256 := h a (by simp)
    have hv1 := b64val_b64char (show a / 4 < 64 by omega)
    have hv2 := b64val_b64char (show a % 4 * 16 < 64 by
      have := Nat.mod_lt a (show 0 < 4 by omega)
      omega)
    rw [b64encode, b64decode, if_pos rfl, if_pos ⟨rfl, rfl⟩, hv1, hv2]
    show some [a / 4 * 4 + a % 4 * 16 / 16] = some [a]
    have : a / 4 * 4 + a % 4 * 16 / 16 = a := by omega
    rw [this]
  | case3 a b =>
    intro h
    have ha : a < 256 := h a (by simp)
    have hb : b < 256 := h b (by simp)
    have hv1 := b64val_b64char (show a / 4 < 64 by omega)
    have hv2 := b64val_b64char (show a % 4 * 16 + b / 16 < 64 by omega)
    have hv3 := b64val_b64char (show b % 16 * 4 < 64 by omega)
    rw [b64encode, b64decode, if_neg (b64char_ne_pad (by omega)), if_pos rfl,
      if_pos rfl, hv1, hv2, hv3]
    show some [a / 4 * 4 + (a % 4 * 16 + b / 16) / 16,
      (a % 4 * 16 + b / 16) % 16 * 16 + b % 16 * 4 / 4] = some [a, b]
    have e1 : a / 4 * 4 + (a % 4 * 16 + b / 16) / 16 = a := by omega
    have e2 : (a % 4 * 16 + b / 16) % 16 * 16 + b % 16 * 4 / 4 = b := by omega
    rw [e1, e2]
  | case4 a b c rest ih =>
    intro h
    have ha : a < 256 := h a (by simp)
    have hb : b < 256 := h b (by simp)
    have hc : c < 256 := h c (by simp)
    have hrest : ∀ x ∈ rest, x < 256 := fun x hx => h x (by simp [hx])
    have hv1 := b64val_b64char (show a / 4 < 64 by omega)
    have hv2 := b64val_b64char (show a % 4 * 16 + b / 16 < 64 by omega)
    have hv3 := b64val_b64char (show b % 16 * 4 + c / 64 < 64 by omega)
    have hv4 := b64val_b64char (show c % 64 < 64 by omega)
    rw [b64encode, b64decode, if_neg (b64char_ne_pad (by omega)),
      if_neg (b64char_ne_pad (by omega)), hv1, hv2, hv3, hv4, ih hrest]
    show some ((a / 4 * 4 + (a % 4 * 16 + b / 16) / 16) ::
      ((a % 4 * 16 + b / 16) % 16 * 16 + (b % 16 * 4 + c / 64) / 4) ::
      ((b % 16 * 4 + c / 64) % 4 * 64 + c % 64) :: rest) = some (a :: b :: c :: rest)
    have e1 : a / 4 * 4 + (a % 4 * 16 + b / 16) / 16 = a := by omega
    have e2 : (a % 4 * 16 + b / 16) % 16 * 16 + (b % 16 * 4 + c / 64) / 4 = b := by
      omega
    have e3 : (b % 16 * 4 + c / 64) % 4 * 64 + c % 64 = c := by omega
    rw [e1, e2, e3]

theorem b64encode_shape : ∀ bs : List Nat, (∀ b ∈ bs, b < 256) →
    ∃ core k, b64encode bs = core ++ List.replicate k '=' ∧ k ≤ 2 ∧
      (∀ c ∈ core, c ≠ '=') ∧ (core.length + k) % 4 = 0 := by
  intro bs
  induction bs using b64encode.induct with
  | case1 =>
    intro _
    exact ⟨[], 0, rfl, by omega, by simp, by simp⟩
  | case2 a =>
    intro h
    have ha : a < 256 := h a (by simp)
    refine ⟨[b64char (a / 4), b64char (a % 4 * 16)], 2, rfl, by omega, ?_, by simp⟩
    intro c hc
    simp only [List.mem_cons, List.not_mem_nil, or_false] at hc
    rcases hc with rfl | rfl
    · exact b64char_ne_pad (by omega)
    · exact b64char_ne_pad (by omega)
  | case3 a b =>
    intro h
    have ha : a < 256 := h a (by simp)
    have hb : b < 256 := h b (by simp)
    refine ⟨[b64char (a / 4), b64char (a % 4 * 16 + b / 16), b64char (b % 16 * 4)],
      1, rfl, by omega, ?_, by simp⟩
    intro c hc
    simp only [List.mem_cons, List.not_mem_nil, or_false] at hc
    rcases hc with rfl | rfl | rfl
    · exact b64char_ne_pad (by omega)
    · exact b64char_ne_pad (by omega)
    · exact b64char_ne_pad (by omega)
  | case4 a b c rest ih =>
    intro h
    have ha : a < 256 := h a (by simp)
    have hb : b < 256 := h b (by simp)
    have hc : c < 256 := h c (by simp)
    obtain ⟨core, k, heq, hk, hne, hmod⟩ := ih (fun x hx => h x (by simp [hx]))
    refine ⟨b64char (a / 4) :: b64char (a % 4 * 16 + b / 16) ::
      b64char (b % 16 * 4 + c / 64) :: b64char (c % 64) :: core, k, ?_, hk, ?_, ?_⟩
    · rw [b64encode, heq]
      rfl
    · intro x hx
      simp only [List.mem_cons] at hx
      rcases hx with rfl | rfl | rfl | rfl | hx
      · exact b64char_ne_pad (by omega)
      · exact b64char_ne_pad (by omega)
      · exact b64char_ne_pad (by omega)
      · exact b64char_ne_pad (by omega)
      · exact hne x hx
    · simp only [List.length_cons]
      omega

theorem dropWhile_replicate_append (k : Nat) (l : List Char) :
    List.dropWhile (fun c => c == '=') (List.replicate k '=' ++ l) =
      List.dropWhile (fun c => c == '=') l := by
  induction k with
  | zero => simp
  | succ k ih => simpa [List.replicate_succ, List.dropWhile_cons] using ih

theorem rstripEq_append_replicate (core : List Char) (k : Nat)
    (h : ∀ c ∈ core, c ≠ '=') :
    rstripEq (core ++ List.replicate k '=') = core := by
  rw [rstripEq, List.reverse_append, List.reverse_replicate]
  have h2 : List.dropWhile (fun c => c = '=') core.reverse = core.reverse := by
    rcases hrev : core.reverse with _ | ⟨c, t⟩
    · simp
    · have hc : c ∈ core := by
        have : c ∈ core.reverse := by rw [hrev]; exact List.mem_cons_self c t
        simpa using this
      rw [List.dropWhile_cons, if_neg (by simpa using h c hc)]
  have h1 : List.dropWhile (fun c => c = '=')
      (List.replicate k '=' ++ core.reverse) =
      List.dropWhile (fun c => c = '=') core.reverse := by
    induction k with
    | zero => simp
    | succ k ih => simpa [List.replicate_succ, List.dropWhile_cons] using ih
  rw [h1, h2, List.reverse_reverse]

theorem repad_core (core : List Char) (k : Nat) (hk : k ≤ 2)
    (hmod : (core.length + k) % 4 = 0) :
    repad core = core ++ List.replicate k '=' := by
  rw [repad]
  have : (4 - core.length % 4) % 4 = k := by omega
  rw [this]

/-! ## UTF-8 round-trip on ASCII text -/

theorem utf8Char_ascii {c : Char} (h : c.toNat < 128) : utf8Char c = [c.toNat] := by
  rw [utf8Char, if_pos h]

theorem utf8Encode_ascii (s : List Char) (h : ∀ c ∈ s, c.toNat < 128) :
    utf8Encode s = s.map Char.toNat := by
  induction s with
  | nil => rfl
  | cons c cs ih =>
    rw [utf8Encode, utf8Char_ascii (h c (List.mem_cons_self c cs)),
      ih (fun x hx => h x (List.mem_cons_of_mem c hx)), List.map_cons]
    rfl

theorem utf8Decode_map_toNat (s : List Char) :
    ∀ fuel, s.length + 1 ≤ fuel → (∀ c ∈ s, c.toNat < 128) →
      utf8Decode fuel (s.map Char.toNat) = some s := by
  induction s with
  | nil =>
    intro fuel hf _
    obtain ⟨f, rfl⟩ : ∃ f, fuel = f + 1 := ⟨fuel - 1, by omega⟩
    rfl
  | cons c cs ih =>
    intro fuel hf h
    obtain ⟨f, rfl⟩ : ∃ f, fuel = f + 1 := ⟨fuel - 1, by omega⟩
    rw [List.map_cons, utf8Decode,
      if_pos (h c (List.mem_cons_self c cs)),
      ih f (by simp only [List.length_cons] at hf; omega)
        (fun x hx => h x (List.mem_cons_of_mem c hx))]
    simp [Char.ofNat_toNat]

/-! ## Serializer output is ASCII -/

theorem hexDigitChar_ascii {d : Nat} (h : d < 16) : (hexDigitChar d).toNat < 128 := by
  rw [hexDigitChar]
  split
  · rw [toNat_ofNat_small (by omega)]
    omega
  · rw [toNat_ofNat_small (by omega)]
    omega

theorem hex4_ascii (n : Nat) : ∀ e ∈ hex4 n, e.toNat < 128 := by
  intro e he
  rw [hex4] at he
  simp only [List.mem_cons, List.not_mem_nil, or_false] at he
  rcases he with rfl | rfl | rfl | rfl <;>
    exact hexDigitChar_ascii (Nat.mod_lt _ (by omega))

theorem escapeChar_ascii (c : Char) : ∀ e ∈ escapeChar c, e.toNat < 128 := by
  intro e he
  rw [escapeChar] at he
  by_cases h1 : c = '"'
  · rw [if_pos h1] at he
    simp only [List.mem_cons, List.not_mem_nil, or_false] at he
    rcases he with rfl | rfl <;> decide
  rw [if_neg h1] at he
  by_cases h2 : c = '\\'
  · rw [if_pos h2] at he
    simp only [List.mem_cons, List.not_mem_nil, or_false] at he
    rcases he with rfl | rfl <;> decide
  rw [if_neg h2] at he
  by_cases h3 : c = '\x08'
  · rw [if_pos h3] at he
    simp only [List.mem_cons, List.not_mem_nil, or_false] at he
    rcases he with rfl | rfl <;> decide
  rw [if_neg h3] at he
  by_cases h4 : c = '\x0c'
  · rw [if_pos h4] at he
    simp only [List.mem_cons, List.not_mem_nil, or_false] at he
    rcases he with rfl | rfl <;> decide
  rw [if_neg h4] at he
  by_cases h5 : c = '\n'
  · rw [if_pos h5] at he
    simp only [List.mem_cons, List.not_mem_nil, or_false] at he
    rcases he with rfl | rfl <;> decide
  rw [if_neg h5] at he
  by_cases h6 : c = '\r'
  · rw [if_pos h6] at he
    simp only [List.mem_cons, List.not_mem_nil, or_false] at he
    rcases he with rfl | rfl <;> decide
  rw [if_neg h6] at he
  by_cases h7 : c = '\t'
  · rw [if_pos h7] at he
    simp only [List.mem_cons, List.not_mem_nil, or_false] at he
    rcases he with rfl | rfl <;> decide
  rw [if_neg h7] at he
  by_cases h8 : c.toNat < 0x20 ∨ 0x7E < c.toNat
  · rw [if_pos h8] at he
    by_cases h9 : c.toNat < 0x10000
    · rw [if_pos h9] at he
      simp only [List.mem_cons] at he
      rcases he with rfl | rfl | he
      · decide
      · decide
      · exact hex4_ascii _ e he
    · rw [if_neg h9] at he
      simp only [List.mem_cons, List.mem_append] at he
      rcases he with (rfl | rfl | he) | (rfl | rfl | he)
      · decide
      · decide
      · exact hex4_ascii _ e he
      · decide
      · decide
      · exact hex4_ascii _ e he
  · rw [if_neg h8] at he
    push_neg at h8
    simp only [List.mem_singleton] at he
    subst he
    omega

theorem escBody_ascii (s : List Char) : ∀ e ∈ escBody s, e.toNat < 128 := by
  induction s with
  | nil => simp [escBody]
  | cons c cs ih =>
    intro e he
    rw [escBody, List.mem_append] at he
    rcases he with he | he
    · exact escapeChar_ascii c e he
    · exact ih e he

theorem dumpsString_ascii (s : List Char) : ∀ e ∈ dumpsString s, e.toNat < 128 := by
  intro e he
  rw [dumpsString] at he
  simp only [List.mem_cons, List.mem_append, List.not_mem_nil, or_false] at he
  rcases he with (rfl | he) | rfl
  · decide
  · exact escBody_ascii s e he
  · decide

theorem intToChars_ascii (n : Int) : ∀ e ∈ intToChars n, e.toNat < 128 := by
  intro e he
  rw [intToChars] at he
  split at he
  · simp only [List.mem_cons] at he
    rcases he with rfl | he
    · decide
    · have := natToChars_digits n.natAbs e he
      omega
  · have := natToChars_digits n.natAbs e he
    omega

theorem dumps_ascii :
    (∀ v, ∀ c ∈ dumps v, c.toNat < 128) ∧
      (∀ fs, ∀ c ∈ dumpsFields fs, c.toNat < 128) ∧
      (∀ l, ∀ c ∈ dumpsElems l, c.toNat < 128) := by
  refine dumps.mutual_induct (fun v => ∀ c ∈ dumps v, c.toNat < 128)
    (fun fs => ∀ c ∈ dumpsFields fs, c.toNat < 128)
    (fun l => ∀ c ∈ dumpsElems l, c.toNat < 128) ?_ ?_ ?_ ?_ ?_ ?_ ?_ ?_ ?_ ?_ ?_ ?_ ?_
  · intro c hc
    have hd : dumps Json.null = ['n', 'u', 'l', 'l'] := rfl
    rw [hd] at hc
    simp only [List.mem_cons, List.not_mem_nil, or_false] at hc
    rcases hc with rfl | rfl | rfl | rfl <;> decide
  · intro c hc
    have hd : dumps (Json.bool false) = ['f', 'a', 'l', 's', 'e'] := rfl
    rw [hd] at hc
    simp only [List.mem_cons, List.not_mem_nil, or_false] at hc
    rcases hc with rfl | rfl | rfl | rfl | rfl <;> decide
  · intro c hc
    have hd : dumps (Json.bool true) = ['t', 'r', 'u', 'e'] := rfl
    rw [hd] at hc
    simp only [List.mem_cons, List.not_mem_nil, or_false] at hc
    rcases hc with rfl | rfl | rfl | rfl <;> decide
  · intro n c hc
    have hd : dumps (Json.num n) = intToChars n := rfl
    rw [hd] at hc
    exact intToChars_ascii n c hc
  · intro s c hc
    have hd : dumps (Json.str s) = dumpsString s := rfl
    rw [hd] at hc
    exact dumpsString_ascii s c hc
  · intro l ih c hc
    have hd : dumps (Json.arr l) = '[' :: (dumpsElems l ++ [']']) := by
      rw [dumps, List.cons_append]
    rw [hd] at hc
    simp only [List.mem_cons, List.mem_append, List.not_mem_nil, or_false] at hc
    rcases hc with rfl | hc | rfl
    · decide
    · exact ih c hc
    · decide
  · intro fs ih c hc
    have hd : dumps (Json.obj fs) = '\x7b' :: (dumpsFields fs ++ ['\x7d']) := by
      rw [dumps, List.cons_append]
    rw [hd] at hc
    simp only [List.mem_cons, List.mem_append, List.not_mem_nil, or_false] at hc
    rcases hc with rfl | hc | rfl
    · decide
    · exact ih c hc
    · decide
  · intro c hc
    have hd : dumpsElems ([] : List Json) = [] := rfl
    rw [hd] at hc
    cases hc
  · intro v ih c hc
    have hd : dumpsElems [v] = dumps v := rfl
    rw [hd] at hc
    exact ih c hc
  · intro v w vs ihv ihl c hc
    have hd : dumpsElems (v :: w :: vs) = dumps v ++ ',' :: dumpsElems (w :: vs) := by
      rw [dumpsElems]
    rw [hd] at hc
    simp only [List.mem_append, List.mem_cons, List.not_mem_nil, or_false] at hc
    rcases hc with hc | rfl | hc
    · exact ihv c hc
    · decide
    · exact ihl c hc
  · intro c hc
    have hd : dumpsFields ([] : List (List Char × Json)) = [] := rfl
    rw [hd] at hc
    cases hc
  · intro k v ih c hc
    have hd : dumpsFields [(k, v)] = dumpsString k ++ ':' :: dumps v := rfl
    rw [hd] at hc
    simp only [List.mem_append, List.mem_cons, List.not_mem_nil, or_false] at hc
    rcases hc with hc | rfl | hc
    · exact dumpsString_ascii k c hc
    · decide
    · exact ih c hc
  · intro k v f fs ihv ihl c hc
    have hd : dumpsFields ((k, v) :: f :: fs) =
        dumpsString k ++ ':' :: dumps v ++ ',' :: dumpsFields (f :: fs) := by
      rw [dumpsFields]
    rw [hd] at hc
    simp only [List.mem_append, List.mem_cons, List.not_mem_nil, or_false, or_assoc] at hc
    rcases hc with hc | rfl | hc | rfl | hc
    · exact dumpsString_ascii k c hc
    · decide
    · exact ihv c hc
    · decide
    · exact ihl c hc

/-! ## The invitation-URL round-trip -/

theorem decode_oob_oobEncode (inv : Json) : decode_oob (oobEncode inv) = some inv := by
  have hascii := dumps_ascii.1 inv
  have henc : utf8Encode (dumps inv) = (dumps inv).map Char.toNat :=
    utf8Encode_ascii _ hascii
  have hbytes : ∀ b ∈ utf8Encode (dumps inv), b < 256 := by
    rw [henc]
    intro b hb
    simp only [List.mem_map] at hb
    obtain ⟨c, hc, rfl⟩ := hb
    have := hascii c hc
    omega
  obtain ⟨core, k, hshape, hk, hne, hmod⟩ := b64encode_shape _ hbytes
  have hrepad : repad (rstripEq (b64encode (utf8Encode (dumps inv)))) =
      b64encode (utf8Encode (dumps inv)) := by
    rw [hshape, rstripEq_append_replicate core k hne, repad_core core k hk hmod]
  rw [oobEncode, decode_oob, hrepad, b64decode_b64encode _ hbytes]
  show (match utf8Decode ((utf8Encode (dumps inv)).length + 1)
      (utf8Encode (dumps inv)) with
    | none => none
    | some chars => loads chars) = some inv
  rw [henc, utf8Decode_map_toNat (dumps inv) _ (by simp) hascii]
  exact loads_dumps inv

/-! ## Helper lemmas for the claim theorems -/

theorem queryEntry_cons (k : List Char) (o : Option Json)
    (rest : List (List Char × Option Json)) :
    (((k, o) :: rest).filterMap (fun p => p.2.map (fun v => (p.1, v)))) =
      optEntry k o ++ rest.filterMap (fun p => p.2.map (fun v => (p.1, v))) := by
  cases o <;> rfl

theorem optEntry_some (k : List Char) (v : Json) : optEntry k (some v) = [(k, v)] :=
  rfl

/-- No `json.dumps(x, indent=2)` output starts with the letter `E`, so a
pretty-printed response body never equals one of the fixed `"Error: ..."`
strings. -/
theorem dumpsIndent2_head_not_E (v : Json) (t : List Char) :
    dumpsIndent2 v = 'E' :: t → False := by
  intro h
  rw [dumpsIndent2] at h
  rcases v with _ | b | n | s | l | fs
  · simp [dumpsInd] at h
  · cases b <;> simp [dumpsInd] at h
  · simp only [dumpsInd] at h
    obtain ⟨c, cs, hc, hd⟩ := intToChars_head n
    rw [hc] at h
    injection h with h1 _
    subst h1
    exact absurd hd (by decide)
  · simp only [dumpsInd] at h
    rw [dumpsString] at h
    injection h with h1 _
    exact absurd h1 (by decide)
  · rcases l with _ | ⟨v0, vs⟩ <;> simp [dumpsInd] at h
  · rcases fs with _ | ⟨f0, fs⟩ <;> simp [dumpsInd] at h

theorem issue_call_ne_did (p : Json) :
    ¬(AcapyApi.issue_call p = AcapyApi.did_call) := by
  intro h
  have hm : (['p', 'o', 's', 't'] : List Char) = ['g', 'e', 't'] :=
    congrArg HttpCall.method h
  exact absurd hm (by decide)

theorem issue_call_ne_connections (p : Json) :
    ¬(AcapyApi.issue_call p = AcapyApi.connections_call) := by
  intro h
  have hm : (['p', 'o', 's', 't'] : List Char) = ['g', 'e', 't'] :=
    congrArg HttpCall.method h
  exact absurd hm (by decide)

theorem issue_call_ne_cred_defs (p : Json) :
    ¬(AcapyApi.issue_call p = AcapyApi.cred_defs_call) := by
  intro h
  have hm : (['p', 'o', 's', 't'] : List Char) = ['g', 'e', 't'] :=
    congrArg HttpCall.method h
  exact absurd hm (by decide)

theorem issue_call_inj {p q : Json}
    (h : AcapyApi.issue_call p = AcapyApi.issue_call q) : p = q := by
  have hp : some p = some q := congrArg HttpCall.payload h
  exact Option.some.inj hp

/-- The offer payload's `schema_id` field is always the literal
placeholder (`src/acapy_api_tool.py:227`). -/
theorem credential_offer_schema_id (c i d a : Json) :
    pySubscript (AcapyApi.credential_offer_payload c i d a) "schema_id".data =
      .ok (.str "PLACEHOLDER_SCHEMA_ID".data) :=
  rfl

/-- Stage discipline of the credential-issuance pipeline: each named error
leaves the trace at the lookups already made, and the offer POST happens
only after all three lookups, always with the placeholder `schema_id`. -/
theorem issue_core_stages (attrs : Json) (env : Transport)
    (calls : List HttpCall) (res : Except PyExc (List Char))
    (h : AcapyApi.issue_core attrs env = (calls, res)) :
    (res = .ok "Error: Could not retrieve public DID.".data →
      calls = [AcapyApi.did_call]) ∧
    (res = .ok "Error: No active connections found.".data →
      calls = [AcapyApi.did_call, AcapyApi.connections_call]) ∧
    (res = .ok "Error: No credential definitions found.".data →
      calls = [AcapyApi.did_call, AcapyApi.connections_call, AcapyApi.cred_defs_call]) ∧
    (∀ p, AcapyApi.issue_call p ∈ calls →
      calls = [AcapyApi.did_call, AcapyApi.connections_call, AcapyApi.cred_defs_call,
        AcapyApi.issue_call p] ∧
      pySubscript p "schema_id".data = .ok (.str "PLACEHOLDER_SCHEMA_ID".data)) := by
  rw [AcapyApi.issue_core] at h
  repeat' split at h
  all_goals try dsimp only at h
  all_goals repeat' split at h
  all_goals injection h with h1 h2
  all_goals subst h1
  all_goals subst h2
  all_goals refine ⟨?_, ?_, ?_, ?_⟩
  all_goals try (intro hh; exact (Except.noConfusion hh))
  all_goals try (intro hh; rfl)
  all_goals try (intro hh; injection hh with hs; exact (dumpsIndent2_head_not_E _ _ hs).elim)
  all_goals try (intro hh; injection hh with hs; exact absurd hs (by decide))
  all_goals intro p hp
  all_goals simp only [List.mem_cons, List.not_mem_nil, or_false, issue_call_ne_did,
    issue_call_ne_connections, issue_call_ne_cred_defs, false_or] at hp
  all_goals obtain rfl := issue_call_inj hp
  all_goals exact ⟨rfl, credential_offer_schema_id _ _ _ _⟩

/-- A successful fan-out produces exactly one record per matched
connection: a `connection_id`/`result` pair for a connection with a truthy
id, and the fixed error record embedding the connection otherwise. -/
theorem fanout_results (content : List Char) (env : Transport) (ms : List Json) :
    ∀ (calls : List HttpCall) (recs : List Json),
      AcapyApi.fanout env content ms = (calls, .ok recs) →
      recs.length = ms.length ∧
      ∀ rec ∈ recs,
        (∃ cid resp, rec = .obj [("connection_id".data, cid), ("result".data, resp)]) ∨
        (∃ conn, rec = .obj [("error".data, .str "Missing connection ID".data),
          ("connection".data, conn)]) := by
  induction ms with
  | nil =>
    intro calls recs h
    rw [AcapyApi.fanout] at h
    injection h with h1 h2
    injection h2 with h3
    subst h3
    exact ⟨rfl, fun rec hrec => absurd hrec (List.not_mem_nil rec)⟩
  | cons conn rest ih =>
    intro calls recs h
    rw [AcapyApi.fanout] at h
    split at h
    · exact absurd (congrArg Prod.snd h) (by simp)
    · split at h
      · rcases hfr : AcapyApi.fanout env content rest with ⟨calls2, res2⟩
        rw [hfr] at h
        dsimp only at h
        cases res2 with
        | error e => exact absurd (congrArg Prod.snd h) (by simp [Except.map])
        | ok l =>
          injection h with h1 h2
          simp only [Except.map] at h2
          injection h2 with h3
          subst h3
          obtain ⟨hlen, hshape⟩ := ih calls2 l hfr
          refine ⟨by simp [hlen], ?_⟩
          intro rec hrec
          rcases List.mem_cons.mp hrec with rfl | hrec2
          · exact Or.inr ⟨conn, rfl⟩
          · exact hshape rec hrec2
      · dsimp only at h
        split at h
        · exact absurd (congrArg Prod.snd h) (by simp)
        · rcases hfr : AcapyApi.fanout env content rest with ⟨calls2, res2⟩
          rw [hfr] at h
          dsimp only at h
          cases res2 with
          | error e => exact absurd (congrArg Prod.snd h) (by simp [Except.map])
          | ok l =>
            injection h with h1 h2
            simp only [Except.map] at h2
            injection h2 with h3
            subst h3
            obtain ⟨hlen, hshape⟩ := ih calls2 l hfr
            refine ⟨by simp [hlen], ?_⟩
            intro rec hrec
            rcases List.mem_cons.mp hrec with rfl | hrec2
            · exact Or.inl ⟨_, _, rfl⟩
            · exact hshape rec hrec2

/-- Characterization of `get_bearer_token` of
`src/mcp_tools/traction_api_tool.py` against a transport whose response to
the token POST is `r`. -/
theorem mcp_gbt_spec (tid akey : List Char) (env : Transport) (r : HttpResp)
    (henv : env (McpTractionApi.token_call tid akey) = .response r) :
    McpTractionApi.get_bearer_token tid akey env =
      ([McpTractionApi.token_call tid akey],
        match dictGet (if r.status = 200 ∨ r.status = 201 then r.json else errorBody r)
            ['t', 'o', 'k', 'e', 'n'] (.str []) with
        | .error e => .error e
        | .ok tok =>
          if pyFalsy tok then .ok (.str "Error: Unable to retrieve token".data)
          else .ok tok) := by
  rw [McpTractionApi.get_bearer_token, henv]
  show (match dictGet (if r.status = 200 ∨ r.status = 201 then r.json else errorBody r)
      ['t', 'o', 'k', 'e', 'n'] (Json.str []) with
    | .error e => ([McpTractionApi.token_call tid akey], Except.error e)
    | .ok tok =>
      if pyFalsy tok then
        ([McpTractionApi.token_call tid akey],
          .ok (Json.str "Error: Unable to retrieve token".data))
      else ([McpTractionApi.token_call tid akey], .ok tok)) = _
  cases dictGet (if r.status = 200 ∨ r.status = 201 then r.json else errorBody r)
      ['t', 'o', 'k', 'e', 'n'] (Json.str []) with
  | error e => rfl
  | ok tok => cases hpf : pyFalsy tok <;> simp [hpf]

/-- Characterization of `get_bearer_token` of `src/tools/traction_api.py`
when the configuration is present, against a transport whose response to
the token POST is `r`. -/
theorem traction_gbt_spec (cfg : TractionApi.Config) (env : Transport) (r : HttpResp)
    (henv : env (TractionApi.token_call cfg) = .response r)
    (ht : cfg.tenantId.isEmpty = false) (hk : cfg.apiKey.isEmpty = false) :
    TractionApi.get_bearer_token cfg env =
      ([TractionApi.token_call cfg],
        match dictGet (if r.status = 200 ∨ r.status = 201 then r.json else errorBody r)
            ['t', 'o', 'k', 'e', 'n'] (.str []) with
        | .error e => .error e
        | .ok tok =>
          if pyFalsy tok then .ok (.str "Error: Unable to retrieve token".data)
          else .ok tok) := by
  rw [TractionApi.get_bearer_token, if_neg (by simp [ht, hk]), henv]
  show (match dictGet (if r.status = 200 ∨ r.status = 201 then r.json else errorBody r)
      ['t', 'o', 'k', 'e', 'n'] (Json.str []) with
    | .error e => ([TractionApi.token_call cfg], Except.error e)
    | .ok tok =>
      if pyFalsy tok then
        ([TractionApi.token_call cfg],
          .ok (Json.str "Error: Unable to retrieve token".data))
      else ([TractionApi.token_call cfg], .ok tok)) = _
  cases dictGet (if r.status = 200 ∨ r.status = 201 then r.json else errorBody r)
      ['t', 'o', 'k', 'e', 'n'] (Json.str []) with
  | error e => rfl
  | ok tok => cases hpf : pyFalsy tok <;> simp [hpf]

/-! ## Claim theorems -/

/-- C1: for every base URL and JSON invitation object, the connection URL
built by `create_out_of_band_invitation` is `base ++ "?oob=" ++ e`, where
`e` is the URL-safe base64 encoding (trailing `=` stripped) of the compact
JSON serialization of the invitation; re-adding padding, base64url-decoding
and parsing `e` as JSON yields exactly the invitation (round-trip). -/
theorem C1_invitation_url_roundtrip (base : List Char) (inv : Json) :
    ∃ e, connection_url base inv = base ++ "?oob=".data ++ e ∧
      decode_oob e = some inv :=
  ⟨oobEncode inv, rfl, decode_oob_oobEncode inv⟩

/-- C2 counterexample: in `src/tools/traction_api.py`, a GET response with
status 201 is treated as success — `http_request` returns the decoded
body, not the error dictionary — contradicting "a GET, PUT or DELETE
response is treated as success only when its status is 200". -/
theorem C2_counterexample_get_201 :
    TractionApi.http_request ['g', 'e', 't']
        (.response ⟨201, "created".data, .bool true⟩) = .ok (.bool true) ∧
    Json.bool true ≠ errorBody ⟨201, "created".data, .bool true⟩ :=
  ⟨rfl, fun hx => nomatch hx⟩

/-- C2 (amended): `src/mcp_tools/traction_api_tool.py` applies the
per-method status checks (GET/PUT/DELETE succeed only on 200, POST on 200
or 201), while `src/tools/traction_api.py` accepts 200 or 201 for every
method; in both files any other status yields the error dictionary
carrying the raw body text and the original numeric status. -/
theorem C2_http_status_handling (r : HttpResp) :
    McpTractionApi.http_request ['g', 'e', 't'] (.response r) =
      .ok (if r.status = 200 then r.json else errorBody r) ∧
    McpTractionApi.http_request ['p', 'u', 't'] (.response r) =
      .ok (if r.status = 200 then r.json else errorBody r) ∧
    McpTractionApi.http_request ['d', 'e', 'l', 'e', 't', 'e'] (.response r) =
      .ok (if r.status = 200 then r.json else errorBody r) ∧
    McpTractionApi.http_request ['p', 'o', 's', 't'] (.response r) =
      .ok (if r.status = 200 ∨ r.status = 201 then r.json else errorBody r) ∧
    TractionApi.http_request ['g', 'e', 't'] (.response r) =
      .ok (if r.status = 200 ∨ r.status = 201 then r.json else errorBody r) ∧
    TractionApi.http_request ['p', 'o', 's', 't'] (.response r) =
      .ok (if r.status = 200 ∨ r.status = 201 then r.json else errorBody r) ∧
    TractionApi.http_request ['p', 'u', 't'] (.response r) =
      .ok (if r.status = 200 ∨ r.status = 201 then r.json else errorBody r) ∧
    TractionApi.http_request ['d', 'e', 'l', 'e', 't', 'e'] (.response r) =
      .ok (if r.status = 200 ∨ r.status = 201 then r.json else errorBody r) :=
  ⟨rfl, rfl, rfl, rfl, rfl, rfl, rfl, rfl⟩

/-- C3 counterexample: a network-level failure is not converted into a
returned status-0 value — `send_message` ends with the transport
exception, which crosses the tool-call boundary as a raised error, not as
a returned string. -/
theorem C3_counterexample_exception :
    AcapyApi.send_message envDown ['c'] ['m'] =
      ([AcapyApi.send_message_call ['c'] ['m']],
        .error (.netError "connection refused".data)) :=
  rfl

/-- C3 (amended): none of the three `http_request` executors has an
exception handler: a network-level failure propagates verbatim as a raised
exception (carrying the transport's message), and it is never converted
into a synthetic status-0 return value. -/
theorem C3_network_failure_propagates (msg : List Char) :
    TractionApi.http_request ['g', 'e', 't'] (.netError msg) = .error (.netError msg) ∧
    TractionApi.http_request ['p', 'o', 's', 't'] (.netError msg) = .error (.netError msg) ∧
    TractionApi.http_request ['p', 'u', 't'] (.netError msg) = .error (.netError msg) ∧
    TractionApi.http_request ['d', 'e', 'l', 'e', 't', 'e'] (.netError msg) =
      .error (.netError msg) ∧
    AcapyApi.http_request ['g', 'e', 't'] (.netError msg) = .error (.netError msg) ∧
    AcapyApi.http_request ['p', 'o', 's', 't'] (.netError msg) = .error (.netError msg) ∧
    McpTractionApi.http_request ['g', 'e', 't'] (.netError msg) = .error (.netError msg) ∧
    McpTractionApi.http_request ['p', 'o', 's', 't'] (.netError msg) =
      .error (.netError msg) ∧
    AcapyApi.send_message (fun _ => .netError msg) ['c'] ['m'] =
      ([AcapyApi.send_message_call ['c'] ['m']], .error (.netError msg)) :=
  ⟨rfl, rfl, rfl, rfl, rfl, rfl, rfl, rfl, rfl⟩

/-- C4 counterexample: with every optional filter omitted the query map is
not empty — it still carries `limit=100` and `offset=0` — and the
`state="active", limit=5` scenario produces `limit`, `offset` and `state`,
not exactly `{state, limit}`. -/
theorem C4_counterexample_defaults :
    list_connections_query none none none none 100 none 0 none none none none =
      [("limit".data, .num 100), ("offset".data, .num 0)] ∧
    list_connections_query none none none none 100 none 0 none none none none ≠ [] ∧
    list_connections_query none none none none 5 none 0 (some "active".data)
        none none none =
      [("limit".data, .num 5), ("offset".data, .num 0),
        ("state".data, .str "active".data)] ∧
    list_connections_query none none none none 5 none 0 (some "active".data)
        none none none ≠
      [("state".data, .str "active".data), ("limit".data, .num 5)] := by
  refine ⟨rfl, ?_, rfl, ?_⟩
  · intro hx
    exact absurd (congrArg List.length hx) (by decide)
  · intro hx
    exact absurd (congrArg List.length hx) (by decide)

/-- C4 (amended): the outbound query map of `list_connections` contains
exactly the provided optional filters in source order — `None`-valued
filters are dropped — but the `int`-typed `limit` and `offset` parameters
are always present (defaults 100 and 0). -/
theorem C4_list_connections_query
    (alias_ cp ik im md st td tpd tr : Option (List Char)) (limit offset : Int) :
    list_connections_query alias_ cp ik im limit md offset st td tpd tr =
      optEntry "alias".data (alias_.map .str) ++
      optEntry "connection_protocol".data (cp.map .str) ++
      optEntry "invitation_key".data (ik.map .str) ++
      optEntry "invitation_msg_id".data (im.map .str) ++
      [("limit".data, .num limit)] ++
      optEntry "my_did".data (md.map .str) ++
      [("offset".data, .num offset)] ++
      optEntry "state".data (st.map .str) ++
      optEntry "their_did".data (td.map .str) ++
      optEntry "their_public_did".data (tpd.map .str) ++
      optEntry "their_role".data (tr.map .str) := by
  rw [list_connections_query]
  simp only [queryEntry_cons, optEntry_some, List.filterMap_nil, List.append_nil,
    List.append_assoc]

/-- C5 counterexample: in a run where all three lookups succeed, the offer
that is POSTed carries the literal placeholder `schema_id`
`"PLACEHOLDER_SCHEMA_ID"` — placeholder-valued credential offers are sent. -/
theorem C5_counterexample_placeholder :
    (AcapyApi.issue_dynamic_credential (Json.arr [])
        (mkEnv didBodyOk connsBodyActive credDefsOk)).1 =
      [AcapyApi.did_call, AcapyApi.connections_call, AcapyApi.cred_defs_call,
        AcapyApi.issue_call offerSent] ∧
    pySubscript offerSent "schema_id".data = .ok (.str "PLACEHOLDER_SCHEMA_ID".data) :=
  ⟨rfl, rfl⟩

/-- C5 (amended): each named lookup error short-circuits
`issue_dynamic_credential` with no further HTTP call (empty DID after the
DID lookup only; no active connection after the two lookups; no credential
definition after the three), and an offer is POSTed only after all three
lookups succeeded — but every offer sent carries the literal placeholder
`schema_id`, so placeholder-valued offers are sent on the success path. -/
theorem C5_issue_stages (attrs : Json) (env : Transport)
    (calls : List HttpCall) (res : Except PyExc (List Char))
    (h : AcapyApi.issue_dynamic_credential attrs env = (calls, res)) :
    (res = .ok "Error: Could not retrieve public DID.".data →
      calls = [AcapyApi.did_call]) ∧
    (res = .ok "Error: No active connections found.".data →
      calls = [AcapyApi.did_call, AcapyApi.connections_call]) ∧
    (res = .ok "Error: No credential definitions found.".data →
      calls = [AcapyApi.did_call, AcapyApi.connections_call, AcapyApi.cred_defs_call]) ∧
    (∀ p, AcapyApi.issue_call p ∈ calls →
      calls = [AcapyApi.did_call, AcapyApi.connections_call, AcapyApi.cred_defs_call,
        AcapyApi.issue_call p] ∧
      pySubscript p "schema_id".data = .ok (.str "PLACEHOLDER_SCHEMA_ID".data)) := by
  rcases attrs with _ | b | n | s | l | fs
  case str =>
    simp only [AcapyApi.issue_dynamic_credential] at h
    rcases hl : loads s with _ | v
    · rw [hl] at h
      injection h with h1 h2
      subst h1
      subst h2
      refine ⟨?_, ?_, ?_, ?_⟩
      · intro hh; injection hh with hh2; exact absurd hh2 (by decide)
      · intro hh; injection hh with hh2; exact absurd hh2 (by decide)
      · intro hh; injection hh with hh2; exact absurd hh2 (by decide)
      · intro p hp; exact absurd hp (List.not_mem_nil _)
    · rw [hl] at h
      exact issue_core_stages v env calls res h
  case arr =>
    simp only [AcapyApi.issue_dynamic_credential] at h
    exact issue_core_stages (Json.arr l) env calls res h
  all_goals simp only [AcapyApi.issue_dynamic_credential] at h
  all_goals injection h with h1 h2
  all_goals subst h1
  all_goals subst h2
  all_goals refine ⟨?_, ?_, ?_, ?_⟩
  all_goals try (intro hh; injection hh with hh2; exact absurd hh2 (by decide))
  all_goals intro p hp
  all_goals exact absurd hp (List.not_mem_nil _)

/-- C5 witness: the three short-circuit stages and the success-path POST,
each exercised against a concrete transport. -/
theorem C5_witness :
    ((AcapyApi.issue_dynamic_credential (Json.arr [])
        (mkEnv (.obj []) (.obj []) (.obj []))).1 = [AcapyApi.did_call]) ∧
    ((AcapyApi.issue_dynamic_credential (Json.arr [])
        (mkEnv didBodyOk connsBodyEmpty (.obj []))).1 =
      [AcapyApi.did_call, AcapyApi.connections_call]) ∧
    ((AcapyApi.issue_dynamic_credential (Json.arr [])
        (mkEnv didBodyOk connsBodyActive credDefsEmpty)).1 =
      [AcapyApi.did_call, AcapyApi.connections_call, AcapyApi.cred_defs_call]) ∧
    ((AcapyApi.issue_dynamic_credential (Json.arr [])
        (mkEnv didBodyOk connsBodyActive credDefsOk)).1 =
      [AcapyApi.did_call, AcapyApi.connections_call, AcapyApi.cred_defs_call,
        AcapyApi.issue_call offerSent] ∧
      pySubscript offerSent "schema_id".data =
        .ok (.str "PLACEHOLDER_SCHEMA_ID".data)) := by
  refine ⟨?_, ?_, ?_, ?_⟩
  · exact (C5_issue_stages (Json.arr []) (mkEnv (.obj []) (.obj []) (.obj []))
      _ _ rfl).1 rfl
  · exact (C5_issue_stages (Json.arr []) (mkEnv didBodyOk connsBodyEmpty (.obj []))
      _ _ rfl).2.1 rfl
  · exact (C5_issue_stages (Json.arr []) (mkEnv didBodyOk connsBodyActive credDefsEmpty)
      _ _ rfl).2.2.1 rfl
  · refine (C5_issue_stages (Json.arr []) (mkEnv didBodyOk connsBodyActive credDefsOk)
      _ _ rfl).2.2.2 offerSent ?_
    exact List.Mem.tail _ (List.Mem.tail _ (List.Mem.tail _ (List.Mem.head _)))

/-- C6: whenever `conn_id` or `content` is empty or whitespace-only, both
basic-message tools return an `"Error:"`-prefixed validation string and
issue zero HTTP calls. -/
theorem C6_validation_no_http (env : Transport) (conn_id content : List Char)
    (h : (pyStrip conn_id).isEmpty = true ∨ (pyStrip content).isEmpty = true) :
    ((AcapyApi.send_message env conn_id content).1 = [] ∧
      ∃ msg, (AcapyApi.send_message env conn_id content).2 = .ok msg ∧
        hasPrefixB "Error:".data msg = true) ∧
    ((McpAcapyApi.send_basic_message conn_id content).1 = [] ∧
      ∃ msg, (McpAcapyApi.send_basic_message conn_id content).2 = .ok msg ∧
        hasPrefixB "Error:".data msg = true) := by
  by_cases h1 : (pyStrip conn_id).isEmpty = true
  · rw [AcapyApi.send_message, McpAcapyApi.send_basic_message, if_pos h1, if_pos h1]
    exact ⟨⟨rfl, _, rfl, by decide⟩, ⟨rfl, _, rfl, by decide⟩⟩
  · have h2 : (pyStrip content).isEmpty = true := h.resolve_left h1
    rw [AcapyApi.send_message, McpAcapyApi.send_basic_message, if_neg h1, if_pos h2,
      if_neg h1, if_pos h2]
    exact ⟨⟨rfl, _, rfl, by decide⟩, ⟨rfl, _, rfl, by decide⟩⟩

/-- C6 witness: a whitespace-only connection id against a failing
transport — the validation error is returned and no request is issued. -/
theorem C6_witness :
    ((pyStrip [' ']).isEmpty = true ∨ (pyStrip ['x']).isEmpty = true) ∧
    (((AcapyApi.send_message envDown [' '] ['x']).1 = [] ∧
      ∃ msg, (AcapyApi.send_message envDown [' '] ['x']).2 = .ok msg ∧
        hasPrefixB "Error:".data msg = true) ∧
     ((McpAcapyApi.send_basic_message [' '] ['x']).1 = [] ∧
      ∃ msg, (McpAcapyApi.send_basic_message [' '] ['x']).2 = .ok msg ∧
        hasPrefixB "Error:".data msg = true)) :=
  ⟨Or.inl (by decide), C6_validation_no_http envDown [' '] ['x'] (Or.inl (by decide))⟩

/-- C7 counterexample: a matched connection without a `connection_id`
yields a result record that carries no connection id — it embeds the
connection object under an error entry instead. -/
theorem C7_counterexample_missing_id :
    AcapyApi.send_message_by_alias
        (mkEnv (.obj []) (.obj [("results".data, .arr [connNoId])]) (.obj []))
        "Bob".data "hi".data =
      ([AcapyApi.connections_call], .ok (dumpsIndent2 (.arr [recNoId]))) ∧
    pyContains recNoId "connection_id".data = .ok false :=
  ⟨rfl, rfl⟩

/-- C7 (amended): when zero connections match the alias
(case-insensitively on `their_label`), `send_message_by_alias` returns the
single structured no-match error record; when `N` connections match and
the fan-out completes, it returns exactly `N` per-connection records — a
`connection_id`/`result` pair for a connection with a truthy id, and an
error record embedding the connection (without its id) otherwise. -/
theorem C7_alias_fanout (env : Transport) (alias_ content : List Char)
    (r : HttpResp) (conns ms : List Json)
    (henv : env AcapyApi.connections_call = .response r)
    (hconns : (dictGet r.json "results".data (.arr [])).bind pyIter = .ok conns)
    (hms : AcapyApi.filterMatches alias_ conns = .ok ms) :
    (ms = [] →
      AcapyApi.send_message_by_alias env alias_ content =
        ([AcapyApi.connections_call],
          .ok (dumpsIndent2 (AcapyApi.no_match_error alias_)))) ∧
    (∀ m ms2 calls recs, ms = m :: ms2 →
      AcapyApi.fanout env content ms = (calls, .ok recs) →
      AcapyApi.send_message_by_alias env alias_ content =
        (AcapyApi.connections_call :: calls, .ok (dumpsIndent2 (.arr recs))) ∧
      recs.length = ms.length ∧
      ∀ rec ∈ recs,
        (∃ cid resp, rec = .obj [("connection_id".data, cid), ("result".data, resp)]) ∨
        (∃ conn, rec = .obj [("error".data, .str "Missing connection ID".data),
          ("connection".data, conn)])) := by
  have hget : AcapyApi.http_request ['g', 'e', 't'] (TransportResult.response r) =
      .ok r.json := rfl
  constructor
  · intro h0
    subst h0
    rw [AcapyApi.send_message_by_alias, henv, hget]
    simp only [hconns, hms, List.isEmpty_nil, if_true]
  · intro m ms2 calls recs h0 hfan
    subst h0
    refine ⟨?_, ?_, ?_⟩
    · rw [AcapyApi.send_message_by_alias, henv, hget]
      simp only [hconns, hms, hfan, List.isEmpty_cons, Bool.false_eq_true, if_false]
    · exact (fanout_results content env (m :: ms2) calls recs hfan).1
    · exact (fanout_results content env (m :: ms2) calls recs hfan).2

/-- C7 witness: a zero-match run returning the no-match record, and a
two-match run (one connection with an id, one without) returning exactly
two per-connection records. -/
theorem C7_witness :
    (AcapyApi.send_message_by_alias
        (mkEnv (.obj []) (.obj [("results".data, .arr [])]) (.obj []))
        "Bob".data "hi".data =
      ([AcapyApi.connections_call],
        .ok (dumpsIndent2 (AcapyApi.no_match_error "Bob".data)))) ∧
    (AcapyApi.send_message_by_alias
        (mkEnv (.obj []) (.obj [("results".data, .arr [connBob, connNoId])]) (.obj []))
        "Bob".data "hi".data =
        (AcapyApi.connections_call ::
            [AcapyApi.send_message_call "c1".data "hi".data],
          .ok (dumpsIndent2 (.arr [recBob, recNoId]))) ∧
      ([recBob, recNoId] : List Json).length =
        ([connBob, connNoId] : List Json).length ∧
      ∀ rec ∈ ([recBob, recNoId] : List Json),
        (∃ cid resp, rec = .obj [("connection_id".data, cid), ("result".data, resp)]) ∨
        (∃ conn, rec = .obj [("error".data, .str "Missing connection ID".data),
          ("connection".data, conn)])) := by
  constructor
  · exact (C7_alias_fanout _ "Bob".data "hi".data
      ⟨200, [], .obj [("results".data, .arr [])]⟩ [] [] rfl rfl rfl).1 rfl
  · exact (C7_alias_fanout _ "Bob".data "hi".data
      ⟨200, [], .obj [("results".data, .arr [connBob, connNoId])]⟩
      [connBob, connNoId] [connBob, connNoId] rfl rfl rfl).2 connBob [connNoId]
      [AcapyApi.send_message_call "c1".data "hi".data] [recBob, recNoId] rfl rfl

/-- C8: `get_bearer_token` issues exactly one token POST (no retry); a
failing status — whose response carries no `token` field — and a success
body whose `token` field is empty both yield the error string
`"Error: Unable to retrieve token"`; otherwise the token from the
response body is returned.  The same holds for the configured copy in
`src/tools/traction_api.py` when `TENANT_ID` and `API_KEY` are set. -/
theorem C8_bearer_token (tid akey : List Char) (r : HttpResp) (env : Transport)
    (henv : env (McpTractionApi.token_call tid akey) = .response r) :
    (McpTractionApi.get_bearer_token tid akey env).1 =
      [McpTractionApi.token_call tid akey] ∧
    (¬(r.status = 200 ∨ r.status = 201) →
      (McpTractionApi.get_bearer_token tid akey env).2 =
        .ok (.str "Error: Unable to retrieve token".data)) ∧
    (∀ tok, (r.status = 200 ∨ r.status = 201) →
      dictGet r.json ['t', 'o', 'k', 'e', 'n'] (.str []) = .ok tok →
      (pyFalsy tok = true →
        (McpTractionApi.get_bearer_token tid akey env).2 =
          .ok (.str "Error: Unable to retrieve token".data)) ∧
      (pyFalsy tok = false →
        (McpTractionApi.get_bearer_token tid akey env).2 = .ok tok)) ∧
    (tid.isEmpty = false → akey.isEmpty = false →
      (TractionApi.get_bearer_token ⟨tid, akey⟩ env).1 =
        [TractionApi.token_call ⟨tid, akey⟩] ∧
      (¬(r.status = 200 ∨ r.status = 201) →
        (TractionApi.get_bearer_token ⟨tid, akey⟩ env).2 =
          .ok (.str "Error: Unable to retrieve token".data)) ∧
      (∀ tok, (r.status = 200 ∨ r.status = 201) →
        dictGet r.json ['t', 'o', 'k', 'e', 'n'] (.str []) = .ok tok →
        pyFalsy tok = false →
        (TractionApi.get_bearer_token ⟨tid, akey⟩ env).2 = .ok tok)) := by
  have hm := mcp_gbt_spec tid akey env r henv
  refine ⟨?_, ?_, ?_, ?_⟩
  · rw [hm]
  · intro hs
    rw [hm, if_neg hs]
    rfl
  · intro tok hs htok
    rw [hm, if_pos hs, htok]
    constructor
    · intro hf
      show (if pyFalsy tok then
          Except.ok (Json.str "Error: Unable to retrieve token".data)
        else Except.ok tok) =
        Except.ok (Json.str "Error: Unable to retrieve token".data)
      rw [if_pos hf]
    · intro hf
      show (if pyFalsy tok then
          Except.ok (Json.str "Error: Unable to retrieve token".data)
        else Except.ok tok) = Except.ok tok
      rw [if_neg (by simp [hf])]
  · intro ht hk
    have hT := traction_gbt_spec ⟨tid, akey⟩ env r henv ht hk
    refine ⟨?_, ?_, ?_⟩
    · rw [hT]
    · intro hs
      rw [hT, if_neg hs]
      rfl
    · intro tok hs htok hf
      rw [hT, if_pos hs, htok]
      show (if pyFalsy tok then
          Except.ok (Json.str "Error: Unable to retrieve token".data)
        else Except.ok tok) = Except.ok tok
      rw [if_neg (by simp [hf])]

/-- C8 witness: a 500 response yields the error string; a 200 response
with a `token` field returns the token, with exactly one POST issued. -/
theorem C8_witness :
    (McpTractionApi.get_bearer_token ['t'] ['k'] envFail500).2 =
      .ok (.str "Error: Unable to retrieve token".data) ∧
    (McpTractionApi.get_bearer_token ['t'] ['k'] envTok).1 =
      [McpTractionApi.token_call ['t'] ['k']] ∧
    (McpTractionApi.get_bearer_token ['t'] ['k'] envTok).2 = .ok (.str ['t', 'k']) ∧
    (TractionApi.get_bearer_token ⟨['t'], ['k']⟩ envTok).2 = .ok (.str ['t', 'k']) := by
  refine ⟨?_, ?_, ?_, ?_⟩
  · exact (C8_bearer_token ['t'] ['k'] ⟨500, "boom".data, .obj []⟩ envFail500
      rfl).2.1 (by decide)
  · exact (C8_bearer_token ['t'] ['k']
      ⟨200, [], .obj [("token".data, .str ['t', 'k'])]⟩ envTok rfl).1
  · exact ((C8_bearer_token ['t'] ['k']
      ⟨200, [], .obj [("token".data, .str ['t', 'k'])]⟩ envTok rfl).2.2.1
        (.str ['t', 'k']) (Or.inl rfl) rfl).2 rfl
  · exact ((C8_bearer_token ['t'] ['k']
      ⟨200, [], .obj [("token".data, .str ['t', 'k'])]⟩ envTok rfl).2.2.2
        rfl rfl).2.2 (.str ['t', 'k']) (Or.inl rfl) rfl rfl

/-- C9: when the create-invitation response has no `"invitation"` field,
the encoding step is skipped and the pretty-printed raw response body is
returned in place of a connection URL — as an ordinary return value, not
an error. -/
theorem C9_missing_invitation_fallback (result : Json)
    (h : pyContains result "invitation".data = .ok false) :
    oob_postprocess result = .ok (dumpsIndent2 result) ∧
    ∀ (tok al ml : List Char) (hs upd : Bool) (md : Json) (env : Transport)
      (r : HttpResp),
      env ⟨['p', 'o', 's', 't'], "/out-of-band/create-invitation".data,
          some (oob_payload al hs md upd ml)⟩ = .response r →
      r.status = 200 → r.json = result →
      McpTractionApi.create_out_of_band_invitation tok env al hs md upd ml =
        ([⟨['p', 'o', 's', 't'], "/out-of-band/create-invitation".data,
            some (oob_payload al hs md upd ml)⟩], .ok (dumpsIndent2 result)) := by
  have h1 : oob_postprocess result = .ok (dumpsIndent2 result) := by
    rw [oob_postprocess, h]
  refine ⟨h1, ?_⟩
  intro tok al ml hs upd md env r henv hstatus hjson
  have hreq : McpTractionApi.http_request ['p', 'o', 's', 't'] (.response r) =
      .ok (if r.status = 200 ∨ r.status = 201 then r.json else errorBody r) := rfl
  simp only [McpTractionApi.create_out_of_band_invitation, henv, hreq,
    if_pos (Or.inl hstatus), hjson, h1]

/-- C9 witness: a response body `{}` (no `invitation` key) is returned
pretty-printed by the tool. -/
theorem C9_witness :
    pyContains (Json.obj []) "invitation".data = .ok false ∧
    oob_postprocess (Json.obj []) = .ok (dumpsIndent2 (Json.obj [])) ∧
    McpTractionApi.create_out_of_band_invitation [] envNull [] false (.obj [])
        false [] =
      ([⟨['p', 'o', 's', 't'], "/out-of-band/create-invitation".data,
          some (oob_payload [] false (.obj []) false [])⟩],
        .ok (dumpsIndent2 (Json.obj []))) := by
  refine ⟨rfl, ?_, ?_⟩
  · exact (C9_missing_invitation_fallback (Json.obj []) rfl).1
  · exact (C9_missing_invitation_fallback (Json.obj []) rfl).2 [] [] [] false false
      (.obj []) envNull ⟨200, [], .obj []⟩ rfl rfl rfl

/-- C10: with an empty `TENANT_ID` or `API_KEY`, `get_bearer_token` of
`src/tools/traction_api.py` returns the fixed missing-configuration error
string and issues zero HTTP calls. -/
theorem C10_missing_config (cfg : TractionApi.Config) (env : Transport)
    (h : cfg.tenantId = [] ∨ cfg.apiKey = []) :
    TractionApi.get_bearer_token cfg env =
      ([], .ok (.str "Error: TENANT_ID or API_KEY is missing".data)) := by
  have hc : cfg.tenantId.isEmpty = true ∨ cfg.apiKey.isEmpty = true := by
    rcases h with h | h
    · exact Or.inl (by rw [h]; rfl)
    · exact Or.inr (by rw [h]; rfl)
  rw [TractionApi.get_bearer_token, if_pos hc]

/-- C10 witness: an empty tenant id short-circuits with the fixed error
string and an empty trace, even against a live transport. -/
theorem C10_witness :
    ((⟨[], ['k']⟩ : TractionApi.Config).tenantId = [] ∨
      (⟨[], ['k']⟩ : TractionApi.Config).apiKey = []) ∧
    TractionApi.get_bearer_token ⟨[], ['k']⟩ envNull =
      ([], .ok (.str "Error: TENANT_ID or API_KEY is missing".data)) :=
  ⟨Or.inl rfl, C10_missing_config ⟨[], ['k']⟩ envNull (Or.inl rfl)⟩
